import Mathlib

/-!
Formal model of the gesture-driven game engine of this repository: the
hand-tracking mini-game hook (constants, data model, the per-frame update
logic of updateAndDrawGame, and the session operations startGame,
resetToStandby, nextLevel, gameOver together with the score bookkeeping
addScore / triggerLevelUp).  The richest variant of the logic is modelled.

Modelling conventions:
* All numeric quantities are exact rationals; the JavaScript source computes
  with double precision floats, which we idealise as exact field arithmetic.
  The single exception is the spawn-count formula, which uses the real
  number power function (Math.pow with exponent 1.3) and the floor function.
* Every comparison of the form Math.hypot(dx, dy) < r in the source (with r
  a nonnegative quantity) is represented by the equivalent comparison
  dx*dx + dy*dy < r*r on squared distances, which keeps all quantities
  rational.  Likewise the comparison distIndex < distMiddle of two such
  distances is represented on the squares.  The sentinel initialisation
  pinchDist = 1000 therefore becomes 1000 * 1000.
* Math.random() is modelled by an injected stream rng : Nat -> Rat of draws
  together with a cursor that is advanced exactly where the source draws a
  random number.  Draws that only feed the renderer (bomb fuse sparks) are
  not modelled, as rendering is not.
* The asynchronous setTimeout(nextLevel, 2500) inside triggerLevelUp is
  modelled as a separate external event (Ev.levelTimer), and the external
  calls startGame / resetToStandby / startCamera as further events.
* Hand input is a list of hands, each hand a total function from landmark
  index to a normalized point, converted to mirrored pixel space by getPx
  exactly as in the source.
-/

/-- A point in pixel space. -/
structure Pt where
  x : ℚ
  y : ℚ
  deriving Repr, DecidableEq

/-- Character state: RUNNING, GRABBED (held by the player), FALLING
(released or knocked airborne), JUMPING (scripted AI jump). -/
inductive CharState where
  | RUNNING
  | GRABBED
  | FALLING
  | JUMPING
  deriving Repr, DecidableEq

/-- Global game status. -/
inductive GameStatus where
  | IDLE
  | STANDBY
  | PLAYING
  | LEVEL_UP
  | GAME_OVER
  deriving Repr, DecidableEq

/-- A game character (the running figure). -/
structure Character where
  id : ℤ
  x : ℚ
  y : ℚ
  vx : ℚ
  originalSpeed : ℚ
  vy : ℚ
  state : CharState
  legFrame : ℚ
  isDead : Bool
  isTricking : Bool
  hasTricked : Bool
  trickTimer : ℚ
  deriving Repr, DecidableEq

/-- A thrown bomb. -/
structure Bomb where
  id : ℤ
  x : ℚ
  y : ℚ
  vy : ℚ
  active : Bool
  deriving Repr, DecidableEq

/-- An ammo supply drop. -/
structure SupplyDrop where
  id : ℤ
  x : ℚ
  y : ℚ
  vy : ℚ
  deriving Repr, DecidableEq

/-- The full mutable game state, including the three id counters that the
source keeps in separate refs next to the state object. -/
structure GameState where
  characters : List Character
  bombs : List Bomb
  supplyDrops : List SupplyDrop
  level : ℤ
  score : ℤ
  levelScore : ℤ
  bombsRemaining : ℤ
  lastTime : ℚ
  lastBombTime : ℚ
  status : GameStatus
  grabbedCharId : ℤ
  isPinching : Bool
  hasDropSpawned : Bool
  levelUpMessage : String
  charIdCounter : ℤ
  bombIdCounter : ℤ
  dropIdCounter : ℤ
  deriving Repr, DecidableEq

/-- Gravity constant (pixels per frame squared). -/
def GRAVITY : ℚ := 0.6

/-- Offset of the ground line from the bottom of the canvas. -/
def GROUND_OFFSET : ℚ := 80

/-- Displayed character width. -/
def CHARACTER_WIDTH : ℚ := 80

/-- Displayed character height. -/
def CHARACTER_HEIGHT : ℚ := 120

/-- Bomb throw cooldown in milliseconds. -/
def BOMB_COOLDOWN : ℚ := 500

/-- Level score needed to pass the current level. -/
def SCORE_TO_PASS_LEVEL : ℤ := 10

/-- Maximum bomb ammo the player can hold. -/
def MAX_BOMBS : ℤ := 5

/-- Pinch start threshold in pixels. -/
def PINCH_START_DIST : ℚ := 60

/-- Pinch stop threshold in pixels (hysteresis). -/
def PINCH_STOP_DIST : ℚ := 100

/-- Magnet capture radius for grabbing in pixels. -/
def GRAB_MAGNET_RADIUS : ℚ := 120

/-- Encouragement messages for levels up to 3. -/
def LEVEL_MESSAGES_easy : List String :=
  ["初露锋芒！", "手速不错！", "热身完毕！", "轻松拿捏！", "旗开得胜！",
   "这就过啦？", "有点意思！", "稳扎稳打！"]

/-- Encouragement messages for levels 4 to 7. -/
def LEVEL_MESSAGES_medium : List String :=
  ["渐入佳境！", "操作犀利！", "反应神速！", "势不可挡！", "令人惊叹！",
   "还有谁？！", "行云流水！", "大显身手！"]

/-- Encouragement messages for levels 8 and above. -/
def LEVEL_MESSAGES_hard : List String :=
  ["神乎其技！", "超越极限！", "主宰比赛！", "传说诞生！", "光速反应！",
   "你是AI吗？", "独孤求败！", "觉醒时刻！", "封神之战！"]

/-- Squared euclidean distance between two points (see the module comment:
all Math.hypot comparisons are represented on squares). -/
def distSq (a b : Pt) : ℚ :=
  (a.x - b.x) * (a.x - b.x) + (a.y - b.y) * (a.y - b.y)

/-- Message pool selection and random pick of triggerLevelUp. -/
def pickMsg (lvl : ℤ) (r : ℚ) : String :=
  let pool :=
    if lvl ≤ 3 then LEVEL_MESSAGES_easy
    else if lvl ≤ 7 then LEVEL_MESSAGES_medium
    else LEVEL_MESSAGES_hard
  pool.getD (⌊r * (pool.length : ℚ)⌋).toNat ""

/-- The part of the game state touched by addScore / triggerLevelUp. -/
structure ScoreCtx where
  score : ℤ
  levelScore : ℤ
  status : GameStatus
  level : ℤ
  msg : String
  deriving Repr, DecidableEq

/-- addScore: adds the points to both the cumulative and the level score and,
when the level score reaches SCORE_TO_PASS_LEVEL while status is PLAYING,
performs the synchronous part of triggerLevelUp (status := LEVEL_UP and a
random encouragement message); returns the new context and random cursor. -/
def addScore (rng : ℕ → ℚ) (i : ℕ) (points : ℤ) (sc : ScoreCtx) : ScoreCtx × ℕ :=
  let sc1 := { sc with score := sc.score + points, levelScore := sc.levelScore + points }
  if SCORE_TO_PASS_LEVEL ≤ sc1.levelScore ∧ sc1.status = GameStatus.PLAYING then
    ({ sc1 with status := GameStatus.LEVEL_UP, msg := pickMsg sc1.level (rng i) }, i + 1)
  else
    (sc1, i)

/-- Result of the gesture-detection block at the top of updateAndDrawGame. -/
structure Gesture where
  pinchPoint : Option Pt
  pinchDistSq : ℚ
  isFiveFingerPinch : Bool
  deriving Repr, DecidableEq

/-- getPx of the source: normalized landmark to mirrored pixel coordinates. -/
def getPx (lm : ℕ → Pt) (w h : ℚ) (idx : ℕ) : Pt :=
  { x := (1 - (lm idx).x) * w, y := (lm idx).y * h }

/-- Gesture detection: five-finger bomb gesture, otherwise two- or
three-finger pinch point and pinch distance (squared). -/
def detectGesture (w h : ℚ) (hands : List (ℕ → Pt)) (grabbedCharId : ℤ) : Gesture :=
  match hands with
  | [] => { pinchPoint := none, pinchDistSq := 1000 * 1000, isFiveFingerPinch := false }
  | lm :: _ =>
    let thumbTip := getPx lm w h 4
    let indexTip := getPx lm w h 8
    let middleTip := getPx lm w h 12
    let ringTip := getPx lm w h 16
    let pinkyTip := getPx lm w h 20
    let distIndex := distSq indexTip thumbTip
    let distMiddle := distSq middleTip thumbTip
    let distRing := distSq ringTip thumbTip
    let distPinky := distSq pinkyTip thumbTip
    if grabbedCharId = -1 ∧ distIndex < 60 * 60 ∧ distMiddle < 60 * 60 ∧
        distRing < 60 * 60 ∧ distPinky < 60 * 60 then
      { pinchPoint := some thumbTip, pinchDistSq := 1000 * 1000, isFiveFingerPinch := true }
    else
      let chosen : Pt × ℚ :=
        if distIndex < distMiddle then
          ({ x := (thumbTip.x + indexTip.x) / 2, y := (thumbTip.y + indexTip.y) / 2 }, distIndex)
        else
          ({ x := (thumbTip.x + middleTip.x) / 2, y := (thumbTip.y + middleTip.y) / 2 }, distMiddle)
      let stable : Pt :=
        if distIndex < 60 * 60 ∧ distMiddle < 60 * 60 then
          { x := (thumbTip.x + indexTip.x + middleTip.x) / 3,
            y := (thumbTip.y + indexTip.y + middleTip.y) / 3 }
        else chosen.1
      { pinchPoint := some stable, pinchDistSq := chosen.2, isFiveFingerPinch := false }

/-- The dual-threshold pinch hysteresis update of the source, on squared
distances: while pinching, stop when the distance exceeds PINCH_STOP_DIST or
a five-finger gesture is present; while not pinching, start when the distance
falls below PINCH_START_DIST and no five-finger gesture is present. -/
def updatePinch (isPinching : Bool) (pinchDistSq : ℚ) (isFiveFingerPinch : Bool) : Bool :=
  if isPinching then
    if PINCH_STOP_DIST * PINCH_STOP_DIST < pinchDistSq ∨ isFiveFingerPinch then false else true
  else
    if pinchDistSq < PINCH_START_DIST * PINCH_START_DIST ∧ ¬isFiveFingerPinch then true else false

/-- The two sequential clamping ifs of the spawn speed computation. -/
def clampSpeed (s : ℚ) : ℚ :=
  let s1 := if 6.0 < s then 6.0 else s
  if s1 < 0.8 then 0.8 else s1

/-- The body of the spawn loop: one character at loop index k, consuming four
random draws (speed factor, two start-position staggers, initial leg frame). -/
def spawnOne (lvl : ℤ) (rng : ℕ → ℚ) (i : ℕ) (cid : ℤ) (k : ℕ) : Character × ℕ :=
  let baseSpeed : ℚ := 1.0 + (lvl : ℚ) * 0.2
  let randomFactor : ℚ := 0.7 + rng i * 0.6
  let finalSpeed := clampSpeed (baseSpeed * randomFactor)
  let startX : ℚ := -100 - rng (i + 1) * 200 - (k : ℚ) * (120 + rng (i + 2) * 100)
  ({ id := cid, x := startX, y := 0, vx := finalSpeed, originalSpeed := finalSpeed, vy := 0,
     state := CharState.RUNNING, legFrame := rng (i + 3) * 4, isDead := false,
     isTricking := false, hasTricked := false, trickTimer := 0 }, i + 4)

/-- The spawn loop: n characters starting at loop index k, threading the
random cursor and the character id counter. -/
def spawnMany (lvl : ℤ) (rng : ℕ → ℚ) : ℕ → ℕ → ℤ → ℕ → List Character × ℕ × ℤ
  | 0, i, cid, _ => ([], i, cid)
  | n + 1, i, cid, k =>
    let one := spawnOne lvl rng i cid k
    let rest := spawnMany lvl rng n one.2 (cid + 1) (k + 1)
    (one.1 :: rest.1, rest.2.1, rest.2.2)

/-- Character count of a wave: floor(2 + (lvl-1)^1.3) capped at 25. -/
noncomputable def spawnCount (lvl : ℤ) : ℤ :=
  let count := ⌊(2 : ℝ) + ((lvl : ℝ) - 1) ^ (1.3 : ℝ)⌋
  if 25 < count then 25 else count

/-- spawnCharacters of the source: the capped count and the spawn loop. -/
noncomputable def spawnCharacters (lvl : ℤ) (rng : ℕ → ℚ) (i : ℕ) (cid : ℤ) :
    List Character × ℕ × ℤ :=
  spawnMany lvl rng (spawnCount lvl).toNat i cid 0

/-- startGame of the source (without the UI-only tutorial toast logic). -/
noncomputable def startGameState (rng : ℕ → ℚ) (i : ℕ) (s : GameState) : GameState :=
  let spawned := spawnCharacters 1 rng i s.charIdCounter
  { s with
    level := 1, score := 0, levelScore := 0, bombs := [], supplyDrops := [],
    hasDropSpawned := false, bombsRemaining := MAX_BOMBS, characters := spawned.1,
    grabbedCharId := -1, isPinching := false, status := GameStatus.PLAYING,
    charIdCounter := spawned.2.2 }

/-- resetToStandby of the source. -/
def resetToStandbyState (s : GameState) : GameState :=
  { s with
    status := GameStatus.STANDBY, characters := [], bombs := [], supplyDrops := [],
    grabbedCharId := -1 }

/-- nextLevel of the source (fired by the level-up timer). -/
noncomputable def nextLevelState (rng : ℕ → ℚ) (s : GameState) : GameState :=
  let nextLvl := s.level + 1
  let spawned := spawnCharacters nextLvl rng 0 s.charIdCounter
  { s with
    level := nextLvl, levelScore := 0, bombs := [], supplyDrops := [],
    hasDropSpawned := false, characters := spawned.1, grabbedCharId := -1,
    status := GameStatus.PLAYING, charIdCounter := spawned.2.2 }

/-- Result of the supply-drop spawn block. -/
structure DropSpawnRes where
  drops : List SupplyDrop
  hasDropSpawned : Bool
  dropIdCounter : ℤ
  rix : ℕ
  deriving Repr

/-- Supply-drop spawn (level 3 and above, at most once per level, only while
PLAYING, with a 0.5 percent per-frame trial). -/
def dropSpawn (w : ℚ) (level : ℤ) (hasSpawned : Bool) (status : GameStatus)
    (drops : List SupplyDrop) (dropIdCounter : ℤ) (rng : ℕ → ℚ) (i : ℕ) : DropSpawnRes :=
  if 3 ≤ level ∧ ¬hasSpawned ∧ status = GameStatus.PLAYING then
    if rng i < 0.005 then
      { drops := drops ++ [{ id := dropIdCounter, x := 100 + rng (i + 1) * (w - 200), y := -50, vy := 2.0 }],
        hasDropSpawned := true, dropIdCounter := dropIdCounter + 1, rix := i + 2 }
    else { drops := drops, hasDropSpawned := hasSpawned, dropIdCounter := dropIdCounter, rix := i + 1 }
  else { drops := drops, hasDropSpawned := hasSpawned, dropIdCounter := dropIdCounter, rix := i }

/-- Accumulator of the supply-drop update loop: kept drops and current ammo. -/
structure DropUpdRes where
  drops : List SupplyDrop
  ammo : ℤ
  deriving Repr, DecidableEq

/-- Body of the supply-drop update loop: fall, pickup test against the pinch
point (within 60 pixels while pinching), ammo increment below the cap, and
the keep condition. -/
def dropStep (h dt : ℚ) (pp : Option Pt) (pinching : Bool) (acc : DropUpdRes)
    (d : SupplyDrop) : DropUpdRes :=
  let d1 := { d with y := d.y + d.vy * dt }
  let picked : Bool :=
    match pp with
    | some p => if pinching ∧ distSq p { x := d1.x, y := d1.y } < 60 * 60 then true else false
    | none => false
  let ammo := if picked ∧ acc.ammo < MAX_BOMBS then acc.ammo + 1 else acc.ammo
  { drops := if ¬picked ∧ d1.y < h + 50 then acc.drops ++ [d1] else acc.drops, ammo := ammo }

/-- The supply-drop update loop over all drops. -/
def dropUpdate (h dt : ℚ) (pp : Option Pt) (pinching : Bool) (ammo : ℤ)
    (drops : List SupplyDrop) : DropUpdRes :=
  drops.foldl (dropStep h dt pp pinching) { drops := [], ammo := ammo }

/-- Result of the bomb spawn block. -/
structure BombSpawnRes where
  bombs : List Bomb
  lastBombTime : ℚ
  ammo : ℤ
  bombIdCounter : ℤ
  deriving Repr, DecidableEq

/-- Bomb spawn: requires a five-finger gesture with a pinch point, not in
LEVEL_UP, the cooldown elapsed, and positive ammo; consumes one ammo. -/
def bombSpawn (isLevelUp five : Bool) (pp : Option Pt) (time lastBombTime : ℚ)
    (ammo : ℤ) (bombs : List Bomb) (bombIdCounter : ℤ) : BombSpawnRes :=
  match pp with
  | some p =>
    if ¬isLevelUp ∧ five ∧ BOMB_COOLDOWN < time - lastBombTime then
      if 0 < ammo then
        { bombs := bombs ++ [{ id := bombIdCounter, x := p.x, y := p.y, vy := 0, active := true }],
          lastBombTime := time,
          ammo := ammo - 1,
          bombIdCounter := bombIdCounter + 1 }
      else { bombs := bombs, lastBombTime := lastBombTime, ammo := ammo, bombIdCounter := bombIdCounter }
    else { bombs := bombs, lastBombTime := lastBombTime, ammo := ammo, bombIdCounter := bombIdCounter }
  | none => { bombs := bombs, lastBombTime := lastBombTime, ammo := ammo, bombIdCounter := bombIdCounter }

/-- Axis-aligned overlap of a bomb with the fixed-ratio hit box of a
character (80 percent of the nominal width and height). -/
abbrev overlap (b : Bomb) (c : Character) : Prop :=
  |b.x - c.x| < CHARACTER_WIDTH * 0.8 ∧ |b.y - c.y| < CHARACTER_HEIGHT * 0.8

/-- Effect of a bomb hit on the struck character: horizontal knockback of the
position by 150, and a launch into FALLING when sufficiently above ground. -/
def hitEffect (groundY : ℚ) (c : Character) : Character :=
  let c1 := { c with x := c.x - 150 }
  if groundY - CHARACTER_HEIGHT < c1.y then
    { c1 with y := c1.y - 40, vy := -8, state := CharState.FALLING }
  else c1

/-- The collision scan of one bomb over the character list: skips dead
characters, applies hitEffect to the first overlapping live character while
the bomb is active and the tick is not in LEVEL_UP, and stops there. -/
def bombScan (isLevelUp : Bool) (groundY : ℚ) (b : Bomb) :
    List Character → Bool × List Character
  | [] => (false, [])
  | c :: rest =>
    if c.isDead then
      let r := bombScan isLevelUp groundY b rest
      (r.1, c :: r.2)
    else if overlap b c ∧ b.active ∧ ¬isLevelUp then
      (true, hitEffect groundY c :: rest)
    else
      let r := bombScan isLevelUp groundY b rest
      (r.1, c :: r.2)

/-- Gravity integration of a bomb (frozen during LEVEL_UP). -/
def bombPhys (isLevelUp : Bool) (dt : ℚ) (b : Bomb) : Bomb :=
  if isLevelUp then b
  else { b with vy := b.vy + GRAVITY * dt, y := b.y + (b.vy + GRAVITY * dt) * dt }

/-- Accumulator and result of the bomb update loop. -/
structure BombStageRes where
  bombs : List Bomb
  characters : List Character
  sc : ScoreCtx
  rix : ℕ
  deriving Repr, DecidableEq

/-- Body of the bomb update loop: physics, collision scan, scoring on a hit,
and the keep condition (neither hit nor reached the ground line). -/
def bombStep (isLevelUp : Bool) (dt groundY : ℚ) (rng : ℕ → ℚ) (acc : BombStageRes)
    (bomb : Bomb) : BombStageRes :=
  let b := bombPhys isLevelUp dt bomb
  let scan := bombScan isLevelUp groundY b acc.characters
  let scored := if scan.1 then addScore rng acc.rix 1 acc.sc else (acc.sc, acc.rix)
  { bombs := if ¬scan.1 ∧ b.y < groundY + 15 then acc.bombs ++ [b] else acc.bombs,
    characters := scan.2, sc := scored.1, rix := scored.2 }

/-- The bomb update loop over all bombs. -/
def bombStage (isLevelUp : Bool) (dt groundY : ℚ) (rng : ℕ → ℚ) (bombs : List Bomb)
    (chars : List Character) (sc : ScoreCtx) (i : ℕ) : BombStageRes :=
  bombs.foldl (bombStep isLevelUp dt groundY rng)
    { bombs := [], characters := chars, sc := sc, rix := i }

/-- Comparison against the running minimum of the magnet scan; the source
initialises minDist = Infinity, represented here as none. -/
def ltOpt (d : ℚ) (m : Option ℚ) : Bool :=
  match m with
  | none => true
  | some v => decide (d < v)

/-- Position of a character as a point. -/
def charPt (c : Character) : Pt := { x := c.x, y := c.y }

/-- The magnet scan of the grab logic: over all live characters in RUNNING or
JUMPING state, track the id of the closest one strictly inside the magnet
radius (squared distances; ties keep the earlier candidate). -/
def grabScanAux (pp : Pt) (minDist : Option ℚ) (foundId : ℤ) :
    List Character → Option ℚ × ℤ
  | [] => (minDist, foundId)
  | c :: rest =>
    if c.isDead then grabScanAux pp minDist foundId rest
    else if c.state ≠ CharState.RUNNING ∧ c.state ≠ CharState.JUMPING then
      grabScanAux pp minDist foundId rest
    else
      let d := distSq pp (charPt c)
      if d < GRAB_MAGNET_RADIUS * GRAB_MAGNET_RADIUS ∧ ltOpt d minDist then
        grabScanAux pp (some d) c.id rest
      else grabScanAux pp minDist foundId rest

/-- Replace the first list element satisfying the predicate by its image
under f (the Array.prototype.find based mutation of the source). -/
def updateFirst (p : Character → Bool) (f : Character → Character) :
    List Character → List Character
  | [] => []
  | c :: rest => if p c then f c :: rest else c :: updateFirst p f rest

/-- Result of the grab-acquisition block. -/
structure GrabRes where
  grabbedCharId : ℤ
  characters : List Character
  sc : ScoreCtx
  rix : ℕ
  deriving Repr, DecidableEq

/-- Grab acquisition: only when not in LEVEL_UP, nothing grabbed, pinching,
and a pinch point exists; on a successful scan the found character is set to
GRABBED, its trick flag cleared, and one point scored. -/
def grabStage (isLevelUp : Bool) (pp : Option Pt) (pinching : Bool) (rng : ℕ → ℚ)
    (grabbedCharId : ℤ) (chars : List Character) (sc : ScoreCtx) (i : ℕ) : GrabRes :=
  match pp with
  | some p =>
    if ¬isLevelUp ∧ grabbedCharId = -1 ∧ pinching then
      let found := (grabScanAux p none (-1) chars).2
      if found ≠ -1 then
        if chars.any (fun c => decide (c.id = found)) then
          let scored := addScore rng i 1 sc
          { grabbedCharId := found,
            characters := updateFirst (fun c => decide (c.id = found))
              (fun c => { c with state := CharState.GRABBED, isTricking := false }) chars,
            sc := scored.1, rix := scored.2 }
        else { grabbedCharId := found, characters := chars, sc := sc, rix := i }
      else { grabbedCharId := grabbedCharId, characters := chars, sc := sc, rix := i }
    else { grabbedCharId := grabbedCharId, characters := chars, sc := sc, rix := i }
  | none => { grabbedCharId := grabbedCharId, characters := chars, sc := sc, rix := i }

/-- Result of the release block. -/
structure RelRes where
  characters : List Character
  grabbedCharId : ℤ
  deriving Repr, DecidableEq

/-- Release: when not pinching while a character is grabbed, that character
becomes FALLING with vx reset to its original speed and vy zeroed, and the
grab id is cleared. -/
def releaseStage (pinching : Bool) (grabbedCharId : ℤ) (chars : List Character) : RelRes :=
  if ¬pinching ∧ grabbedCharId ≠ -1 then
    { characters := updateFirst (fun c => decide (c.id = grabbedCharId))
        (fun c => { c with state := CharState.FALLING, vx := c.originalSpeed, vy := 0 }) chars,
      grabbedCharId := -1 }
  else { characters := chars, grabbedCharId := grabbedCharId }

/-- Result of updating one character, with the consumed random cursor and
event flags recording whether a scripted jump or trick retreat started. -/
structure CharRes where
  c : Character
  rix : ℕ
  jumped : Bool
  trickStarted : Bool
  deriving Repr, DecidableEq

/-- The scripted AI trigger: at level 2 and above, for a RUNNING character
outside LEVEL_UP that is neither tricking nor has tricked, one random trial
per frame (probability 0.008) either starts a jump (upward impulse, state
JUMPING) or a trick retreat (trick flag, 45 frame timer, vx := -2.5).
Returns the character, the random cursor, and the two event flags. -/
def charAI (level : ℤ) (isLevelUp : Bool) (rng : ℕ → ℚ) (i : ℕ) (c : Character) :
    Character × ℕ × Bool × Bool :=
  if 2 ≤ level ∧ c.state = CharState.RUNNING ∧ ¬isLevelUp ∧ ¬c.isTricking ∧ ¬c.hasTricked then
    if rng i < 0.008 then
      if rng (i + 1) < 0.4 then
        ({ c with vy := -16, state := CharState.JUMPING }, i + 2, true, false)
      else
        ({ c with isTricking := true, trickTimer := 45, vx := -2.5 }, i + 2, false, true)
    else (c, i + 1, false, false)
  else (c, i, false, false)

/-- The trick timer block: while tricking, count the timer down and, on
expiry, end the trick, set the hasTricked flag, and burst to 1.5 times the
base speed; otherwise, while RUNNING without a completed trick, decelerate
smoothly back down to the base speed. -/
def charTrickTimer (dt : ℚ) (c1 : Character) : Character :=
  if c1.isTricking then
    let t := c1.trickTimer - dt
    if t ≤ 0 then
      { c1 with
        trickTimer := t, isTricking := false, hasTricked := true,
        vx := c1.originalSpeed * 1.5 }
    else { c1 with trickTimer := t }
  else if c1.state = CharState.RUNNING ∧ ¬c1.hasTricked ∧ c1.originalSpeed < c1.vx then
    let v := c1.vx - 0.05 * dt
    { c1 with vx := if v < c1.originalSpeed then c1.originalSpeed else v }
  else c1

/-- The character physics block: RUNNING moves at vx (frozen during
LEVEL_UP) pinned to the ground line; FALLING and JUMPING integrate gravity
and return to RUNNING on landing, restoring a forward speed when vx had
gone negative. -/
def charPhysics (isLevelUp : Bool) (dt groundY : ℚ) (c2 : Character) : Character :=
  if c2.state = CharState.RUNNING then
    { c2 with
      x := c2.x + (if isLevelUp then 0 else c2.vx) * dt,
      y := groundY - CHARACTER_HEIGHT / 2,
      legFrame := c2.legFrame + (if isLevelUp then 0.05 else 0.15) * dt }
  else if c2.state = CharState.FALLING ∨ c2.state = CharState.JUMPING then
    let vy := c2.vy + GRAVITY * dt
    let c4 :=
      { c2 with
        x := c2.x + c2.vx * dt, vy := vy, y := c2.y + vy * dt,
        legFrame := c2.legFrame + 0.2 * dt }
    if groundY - CHARACTER_HEIGHT / 2 ≤ c4.y then
      { c4 with
        y := groundY - CHARACTER_HEIGHT / 2, vy := 0, state := CharState.RUNNING,
        vx := if c4.vx < 0 then c4.originalSpeed else c4.vx }
    else c4
  else c2

/-- Free movement of a character that is not currently held: the scripted AI
trigger, then the trick timer block, then the physics block, in the order of
the source. -/
def charFree (level : ℤ) (isLevelUp : Bool) (dt groundY : ℚ) (rng : ℕ → ℚ) (i : ℕ)
    (c : Character) : CharRes :=
  let ai := charAI level isLevelUp rng i c
  { c := charPhysics isLevelUp dt groundY (charTrickTimer dt ai.1),
    rix := ai.2.1, jumped := ai.2.2.1, trickStarted := ai.2.2.2 }

/-- The per-character body of the main update loop: the held character is
eased toward the pinch point, every other character moves freely. -/
def charBody (level : ℤ) (isLevelUp : Bool) (grabbedCharId : ℤ) (pp : Option Pt)
    (dt groundY : ℚ) (rng : ℕ → ℚ) (i : ℕ) (c : Character) : CharRes :=
  match pp with
  | some p =>
    if c.id = grabbedCharId ∧ ¬isLevelUp then
      let held :=
        { c with
          x := c.x + (p.x - c.x) * 0.6, y := c.y + (p.y - c.y) * 0.6, vy := 0,
          legFrame := c.legFrame + 0.25 * dt }
      { c := held, rix := i, jumped := false, trickStarted := false }
    else charFree level isLevelUp dt groundY rng i c
  | none => charFree level isLevelUp dt groundY rng i c

/-- Result of the main character loop. -/
structure CharLoopRes where
  characters : List Character
  rix : ℕ
  breached : Bool
  deriving Repr, DecidableEq

/-- The main character loop: dead characters are skipped untouched; after
updating a character, a breach of the right boundary (outside LEVEL_UP)
aborts the loop immediately, leaving the remaining characters unprocessed;
otherwise the left clamp at -300 is applied and the loop continues. -/
def charLoop (level : ℤ) (isLevelUp : Bool) (grabbedCharId : ℤ) (pp : Option Pt)
    (dt groundY w : ℚ) (rng : ℕ → ℚ) : ℕ → List Character → CharLoopRes
  | i, [] => { characters := [], rix := i, breached := false }
  | i, c :: rest =>
    if c.isDead then
      let r := charLoop level isLevelUp grabbedCharId pp dt groundY w rng i rest
      { characters := c :: r.characters, rix := r.rix, breached := r.breached }
    else
      let b := charBody level isLevelUp grabbedCharId pp dt groundY rng i c
      if ¬isLevelUp ∧ w + 20 < b.c.x then
        { characters := b.c :: rest, rix := b.rix, breached := true }
      else
        let c2 := if b.c.x < -300 then { b.c with x := -300 } else b.c
        let r := charLoop level isLevelUp grabbedCharId pp dt groundY w rng b.rix rest
        { characters := c2 :: r.characters, rix := r.rix, breached := r.breached }

/-- The character stage: the loop plus the gameOver transition on a breach. -/
def charStage (level : ℤ) (isLevelUp : Bool) (grabbedCharId : ℤ) (pp : Option Pt)
    (dt groundY w : ℚ) (rng : ℕ → ℚ) (i : ℕ) (chars : List Character)
    (status : GameStatus) : CharLoopRes × GameStatus :=
  let r := charLoop level isLevelUp grabbedCharId pp dt groundY w rng i chars
  (r, if r.breached then GameStatus.GAME_OVER else status)

/-- The STANDBY branch of the tick: ambient walker spawn and movement, then
the pinch-to-start button test which calls startGame. -/
noncomputable def standbyTick (w h dt : ℚ) (pp : Option Pt) (pinching : Bool)
    (rng : ℕ → ℚ) (s : GameState) : GameState :=
  let groundY := h - GROUND_OFFSET
  let walker : Character :=
    { id := s.charIdCounter, x := -100, y := groundY - CHARACTER_HEIGHT / 2,
      vx := 1.5 + rng 1, originalSpeed := 1.5, vy := 0, state := CharState.RUNNING,
      legFrame := 0, isDead := false, isTricking := false, hasTricked := false,
      trickTimer := 0 }
  let spawned : List Character × ℤ × ℕ :=
    if rng 0 < 0.015 then (s.characters ++ [walker], s.charIdCounter + 1, 2)
    else (s.characters, s.charIdCounter, 1)
  let moved := (spawned.1.map
      (fun c => { c with x := c.x + c.vx * dt, legFrame := c.legFrame + 0.15 * dt })).filter
      (fun c => decide (c.x < w + 100))
  let s1 := { s with characters := moved, charIdCounter := spawned.2.1 }
  match pp with
  | some p =>
    let btnW : ℚ := 320
    let btnH : ℚ := 150
    let btnX := w / 2 - btnW / 2
    let btnY := h / 2 - btnH / 2
    if (btnX < p.x ∧ p.x < btnX + btnW ∧ btnY < p.y ∧ p.y < btnY + btnH) ∧ pinching then
      startGameState rng spawned.2.2 s1
    else s1
  | none => s1

/-- The PLAYING / LEVEL_UP branch of the tick: supply-drop spawn and update,
bomb spawn, bomb update with collisions and scoring, grab acquisition,
release, and the main character loop with the boundary failure check.  The
LEVEL_UP flag is latched from the status at the start of the branch. -/
def playTick (w h time dt : ℚ) (pp : Option Pt) (five : Bool) (rng : ℕ → ℚ)
    (s : GameState) : GameState :=
  let groundY := h - GROUND_OFFSET
  let isLevelUp : Bool := decide (s.status = GameStatus.LEVEL_UP)
  let ds := dropSpawn w s.level s.hasDropSpawned s.status s.supplyDrops s.dropIdCounter rng 0
  let du := dropUpdate h dt pp s.isPinching s.bombsRemaining ds.drops
  let bs := bombSpawn isLevelUp five pp time s.lastBombTime du.ammo s.bombs s.bombIdCounter
  let sc0 : ScoreCtx :=
    { score := s.score, levelScore := s.levelScore, status := s.status,
      level := s.level, msg := s.levelUpMessage }
  let bu := bombStage isLevelUp dt groundY rng bs.bombs s.characters sc0 ds.rix
  let gr := grabStage isLevelUp pp s.isPinching rng s.grabbedCharId bu.characters bu.sc bu.rix
  let rl := releaseStage s.isPinching gr.grabbedCharId gr.characters
  let cl := charStage s.level isLevelUp rl.grabbedCharId pp dt groundY w rng gr.rix
    rl.characters gr.sc.status
  { s with
    characters := cl.1.characters, bombs := bu.bombs, supplyDrops := du.drops,
    score := gr.sc.score, levelScore := gr.sc.levelScore, levelUpMessage := gr.sc.msg,
    bombsRemaining := bs.ammo, lastBombTime := bs.lastBombTime, status := cl.2,
    grabbedCharId := rl.grabbedCharId, hasDropSpawned := ds.hasDropSpawned,
    dropIdCounter := ds.dropIdCounter, bombIdCounter := bs.bombIdCounter }

/-- The per-frame input of a tick: the timestamp, the canvas extent, the
detected hands, and the random stream of this frame. -/
structure TickInput where
  time : ℚ
  w : ℚ
  h : ℚ
  hands : List (ℕ → Pt)
  rng : ℕ → ℚ

/-- One invocation of updateAndDrawGame: a GAME_OVER tick returns at once
leaving the state untouched; otherwise the frame delta and the gesture are
computed, the pinch hysteresis is updated, and the STANDBY or the
PLAYING / LEVEL_UP branch runs. -/
noncomputable def tick (inp : TickInput) (s : GameState) : GameState :=
  if s.status = GameStatus.GAME_OVER then s
  else
    let dt := (inp.time - s.lastTime) / 16.67
    let s1 := { s with lastTime := inp.time }
    let g := detectGesture inp.w inp.h inp.hands s1.grabbedCharId
    let s2 := { s1 with isPinching := updatePinch s1.isPinching g.pinchDistSq g.isFiveFingerPinch }
    if s2.status = GameStatus.STANDBY then
      standbyTick inp.w inp.h dt g.pinchPoint s2.isPinching inp.rng s2
    else
      playTick inp.w inp.h inp.time dt g.pinchPoint g.isFiveFingerPinch inp.rng s2

/-- External events driving the engine: frames, the start and reset calls,
the level-up timer, and camera readiness. -/
inductive Ev where
  | tick (inp : TickInput)
  | start (rng : ℕ → ℚ)
  | reset
  | levelTimer (rng : ℕ → ℚ)
  | cameraReady

/-- One event transition. -/
noncomputable def stepEv (s : GameState) : Ev → GameState
  | Ev.tick inp => tick inp s
  | Ev.start rng => startGameState rng 0 s
  | Ev.reset => resetToStandbyState s
  | Ev.levelTimer rng => nextLevelState rng s
  | Ev.cameraReady => { s with status := GameStatus.STANDBY }

/-- The initial state of the game state ref. -/
def initState : GameState :=
  { characters := [], bombs := [], supplyDrops := [], level := 1, score := 0, levelScore := 0,
    bombsRemaining := MAX_BOMBS, lastTime := 0, lastBombTime := 0, status := GameStatus.IDLE,
    grabbedCharId := -1, isPinching := false, hasDropSpawned := false, levelUpMessage := "",
    charIdCounter := 0, bombIdCounter := 0, dropIdCounter := 0 }

/-- Run a sequence of events from a state. -/
noncomputable def run (s : GameState) (evs : List Ev) : GameState := evs.foldl stepEv s

/-- All characters of a list are live (isDead = false). -/
def AllAlive (cs : List Character) : Prop := ∀ c ∈ cs, c.isDead = false

/-- A character standing on the ground line (canvas 1280 x 720, ground line
at 640) used by the bomb-collision counterexample. -/
def cexHitChar : Character :=
  { id := 0, x := 0, y := 580, vx := 3, originalSpeed := 3, vy := 0,
    state := CharState.RUNNING, legFrame := 0, isDead := false, isTricking := false,
    hasTricked := false, trickTimer := 0 }

/-- A PLAYING state with one bomb placed exactly on the character. -/
def cexC1State : GameState :=
  { characters := [cexHitChar],
    bombs := [{ id := 0, x := 0, y := 580, vy := 0, active := true }],
    supplyDrops := [], level := 1, score := 0, levelScore := 0,
    bombsRemaining := 0, lastTime := 0, lastBombTime := 0, status := GameStatus.PLAYING,
    grabbedCharId := -1, isPinching := false, hasDropSpawned := false, levelUpMessage := "",
    charIdCounter := 1, bombIdCounter := 1, dropIdCounter := 0 }

/-- A frame with no hands, one frame after time zero (dt = 1). -/
def cexNoHandInput : TickInput :=
  { time := 1667 / 100, w := 1280, h := 720, hands := [], rng := fun _ => 0 }

/-- The standby walker that the first no-hand frame spawns (the zero random
stream passes the 1.5 percent draw), after one frame of movement. -/
def cexStandbyWalker : Character :=
  { id := 0, x := -197 / 2, y := 580, vx := 3 / 2, originalSpeed := 3 / 2, vy := 0,
    state := CharState.RUNNING, legFrame := 3 / 20, isDead := false, isTricking := false,
    hasTricked := false, trickTimer := 0 }

/-- A RUNNING character on the ground used by the repeated-jump counterexample. -/
def cexJumpChar : Character :=
  { id := 0, x := 0, y := 580, vx := 1, originalSpeed := 1, vy := 0,
    state := CharState.RUNNING, legFrame := 0, isDead := false, isTricking := false,
    hasTricked := false, trickTimer := 0 }

/-- A PLAYING state at level score 9 with two bombs, each placed on one of
two characters, used by the score-freeze counterexample. -/
def cexC3State : GameState :=
  { characters :=
      [{ id := 0, x := 0, y := 580, vx := 3, originalSpeed := 3, vy := 0,
         state := CharState.RUNNING, legFrame := 0, isDead := false, isTricking := false,
         hasTricked := false, trickTimer := 0 },
       { id := 1, x := 400, y := 580, vx := 3, originalSpeed := 3, vy := 0,
         state := CharState.RUNNING, legFrame := 0, isDead := false, isTricking := false,
         hasTricked := false, trickTimer := 0 }],
    bombs := [{ id := 0, x := 0, y := 580, vy := 0, active := true },
              { id := 1, x := 400, y := 580, vy := 0, active := true }],
    supplyDrops := [], level := 1, score := 9, levelScore := 9,
    bombsRemaining := 0, lastTime := 0, lastBombTime := 0, status := GameStatus.PLAYING,
    grabbedCharId := -1, isPinching := false, hasDropSpawned := false, levelUpMessage := "",
    charIdCounter := 2, bombIdCounter := 2, dropIdCounter := 0 }

/-- A GAME_OVER state used by the boundary-failure witness. -/
def cexGameOverState : GameState :=
  { characters := [cexHitChar], bombs := [], supplyDrops := [], level := 2, score := 13,
    levelScore := 3, bombsRemaining := 1, lastTime := 50, lastBombTime := 0,
    status := GameStatus.GAME_OVER, grabbedCharId := -1, isPinching := false,
    hasDropSpawned := false, levelUpMessage := "", charIdCounter := 1, bombIdCounter := 0,
    dropIdCounter := 0 }

/-- A character beyond the right boundary used by the boundary-failure witness. -/
def cexBreachChar : Character :=
  { id := 7, x := 2000, y := 580, vx := 0, originalSpeed := 1, vy := 0,
    state := CharState.RUNNING, legFrame := 0, isDead := false, isTricking := false,
    hasTricked := false, trickTimer := 0 }

/-- The live character with visible state RUNNING and grabbable position used
by the grab witnesses: it sits 50 pixels right of the pinch point (0, 0). -/
def cexGrabChar : Character :=
  { id := 4, x := 50, y := 0, vx := 2, originalSpeed := 2, vy := 0,
    state := CharState.RUNNING, legFrame := 0, isDead := false, isTricking := false,
    hasTricked := false, trickTimer := 0 }

/-- The grab witness character after acquisition. -/
def cexGrabbedChar : Character :=
  { cexGrabChar with state := CharState.GRABBED, isTricking := false }

/-- Grabbable: a live (non-dead) character in RUNNING or JUMPING state; the
candidate filter of the magnet scan. -/
abbrev grabbable (c : Character) : Prop :=
  c.isDead = false ∧ (c.state = CharState.RUNNING ∨ c.state = CharState.JUMPING)

/-- Candidate strictly inside the magnet radius around the pinch point
(squared distances). -/
abbrev inRadius (p : Pt) (c : Character) : Prop :=
  grabbable c ∧ distSq p (charPt c) < GRAB_MAGNET_RADIUS * GRAB_MAGNET_RADIUS

/-- For nonnegative arguments, comparing distances is the same as comparing
their squares (strict version). -/
theorem sq_lt_sq_iff_of_nonneg (d r : ℚ) (hd : 0 ≤ d) (hr : 0 ≤ r) :
    d * d < r * r ↔ d < r := by
  constructor
  · intro h
    by_contra hc
    push_neg at hc
    nlinarith
  · intro h
    nlinarith

/-- For nonnegative arguments, comparing distances is the same as comparing
their squares (non-strict version). -/
theorem sq_le_sq_iff_of_nonneg (d r : ℚ) (hd : 0 ≤ d) (hr : 0 ≤ r) :
    d * d ≤ r * r ↔ d ≤ r := by
  constructor
  · intro h
    by_contra hc
    push_neg at hc
    nlinarith
  · intro h
    nlinarith

theorem charAI_of_hasTricked (level : ℤ) (isLevelUp : Bool) (rng : ℕ → ℚ) (i : ℕ)
    (c : Character) (h : c.hasTricked = true) :
    charAI level isLevelUp rng i c = (c, i, false, false) := by
  simp [charAI, h]

theorem charTrickTimer_hasTricked (dt : ℚ) (c : Character) (h : c.hasTricked = true) :
    (charTrickTimer dt c).hasTricked = true := by
  simp only [charTrickTimer]
  split_ifs <;> simp [h]

theorem charPhysics_hasTricked (isLevelUp : Bool) (dt groundY : ℚ) (c : Character) :
    (charPhysics isLevelUp dt groundY c).hasTricked = c.hasTricked := by
  simp only [charPhysics]
  split_ifs <;> rfl

theorem bombScan_first_hit (groundY : ℚ) (b : Bomb) (post : List Character)
    (c : Character) (hact : b.active = true) (hc : c.isDead = false) (hov : overlap b c) :
    ∀ pre : List Character, (∀ x ∈ pre, x.isDead = true ∨ ¬ overlap b x) →
      bombScan false groundY b (pre ++ c :: post) =
        (true, pre ++ hitEffect groundY c :: post) := by
  intro pre
  induction pre with
  | nil =>
    intro _
    simp [bombScan, hc, hov, hact]
  | cons a rest ih =>
    intro hpre
    have ha := hpre a (by simp)
    have hrest : ∀ x ∈ rest, x.isDead = true ∨ ¬ overlap b x := by
      intro x hx
      exact hpre x (by simp [hx])
    rcases ha with hdead | hnov
    · simp only [List.cons_append, bombScan, hdead, if_true, List.append_eq]
      rw [ih hrest]
    · by_cases hdead : a.isDead
      · simp only [List.cons_append, bombScan, hdead, if_true, List.append_eq]
        rw [ih hrest]
      · simp only [List.cons_append, bombScan, hdead, if_false, List.append_eq]
        rw [ih hrest]
        simp [hnov]

/-- Claim C1 (amended): during a non-LEVEL_UP tick, when the moved bomb is
active and overlaps the hit box of the first live overlapping character in
list order, the bomb update step removes the bomb from the kept list, adds
exactly one point to both the cumulative and the level score, and knocks
that character back by setting its horizontal position to its previous value
minus 150; the horizontal velocity vx is left unchanged (the knockback is a
position change, not a velocity change). -/
theorem C1_bomb_hit (dt groundY : ℚ) (rng : ℕ → ℚ) (acc : BombStageRes) (bomb : Bomb)
    (pre post : List Character) (c : Character)
    (hchars : acc.characters = pre ++ c :: post)
    (hact : (bombPhys false dt bomb).active = true)
    (hpre : ∀ x ∈ pre, x.isDead = true ∨ ¬ overlap (bombPhys false dt bomb) x)
    (hc : c.isDead = false)
    (hov : overlap (bombPhys false dt bomb) c) :
    (bombStep false dt groundY rng acc bomb).bombs = acc.bombs ∧
    (bombStep false dt groundY rng acc bomb).characters =
      pre ++ hitEffect groundY c :: post ∧
    (bombStep false dt groundY rng acc bomb).sc.score = acc.sc.score + 1 ∧
    (bombStep false dt groundY rng acc bomb).sc.levelScore = acc.sc.levelScore + 1 ∧
    (hitEffect groundY c).x = c.x - 150 ∧
    (hitEffect groundY c).vx = c.vx := by
  have hs := bombScan_first_hit groundY (bombPhys false dt bomb) post c hact hc hov pre hpre
  have hx : (hitEffect groundY c).x = c.x - 150 := by
    simp only [hitEffect]
    split_ifs <;> rfl
  have hvx : (hitEffect groundY c).vx = c.vx := by
    simp only [hitEffect]
    split_ifs <;> rfl
  have hscore : ∀ j sc, (addScore rng j 1 sc).1.score = sc.score + 1 ∧
      (addScore rng j 1 sc).1.levelScore = sc.levelScore + 1 := by
    intro j sc
    simp only [addScore]
    split_ifs <;> exact ⟨rfl, rfl⟩
  refine ⟨?_, ?_, ?_, ?_, hx, hvx⟩ <;>
    simp [bombStep, hchars, hs, hscore]

/-- Witness for C1 at a bomb placed on a single ground character. -/
theorem C1_bomb_hit_witness :
    (({ bombs := [], characters := [cexHitChar],
        sc := { score := 0, levelScore := 0, status := GameStatus.PLAYING, level := 1,
                msg := "" },
        rix := 0 } : BombStageRes).characters = [] ++ cexHitChar :: [] ∧
      (bombPhys false 1 { id := 0, x := 0, y := 580, vy := 0, active := true }).active = true ∧
      cexHitChar.isDead = false ∧
      overlap (bombPhys false 1 { id := 0, x := 0, y := 580, vy := 0, active := true })
        cexHitChar) ∧
    (bombStep false 1 640 (fun _ => 0)
        { bombs := [], characters := [cexHitChar],
          sc := { score := 0, levelScore := 0, status := GameStatus.PLAYING, level := 1,
                  msg := "" },
          rix := 0 }
        { id := 0, x := 0, y := 580, vy := 0, active := true }).sc.score = 0 + 1 ∧
    (hitEffect 640 cexHitChar).x = cexHitChar.x - 150 ∧
    (hitEffect 640 cexHitChar).vx = cexHitChar.vx := by
  have h := C1_bomb_hit 1 640 (fun _ => 0)
    { bombs := [], characters := [cexHitChar],
      sc := { score := 0, levelScore := 0, status := GameStatus.PLAYING, level := 1,
              msg := "" },
      rix := 0 }
    { id := 0, x := 0, y := 580, vy := 0, active := true } [] [] cexHitChar
    rfl (by norm_num [bombPhys, GRAVITY]) (by simp)
    (by norm_num [cexHitChar])
    (by norm_num [overlap, bombPhys, cexHitChar, GRAVITY, CHARACTER_WIDTH,
      CHARACTER_HEIGHT, abs_lt])
  exact ⟨⟨rfl, by norm_num [bombPhys, GRAVITY], by norm_num [cexHitChar],
    by norm_num [overlap, bombPhys, cexHitChar, GRAVITY, CHARACTER_WIDTH,
      CHARACTER_HEIGHT, abs_lt]⟩, h.2.2.1, h.2.2.2.2.1, h.2.2.2.2.2⟩

/-- Counterexample for C1 as stated: in a full PLAYING tick in which a bomb
hits the only character (previous vx = 3), the character ends the tick with
vx = 3, not 3 - 150: the knockback changes the position, never the velocity. -/
theorem C1_counterexample :
    ((tick cexNoHandInput cexC1State).characters.map (fun c => c.vx)) = [3] ∧
    ¬((3 : ℚ) = 3 - 150) := by
  norm_num +decide [tick, playTick, detectGesture, updatePinch, dropSpawn, dropUpdate,
    bombSpawn, bombStage, bombStep, bombPhys, bombScan, hitEffect, addScore, grabStage,
    releaseStage, charStage, charLoop, charBody, charFree, charAI, charTrickTimer,
    charPhysics, cexC1State, cexNoHandInput, cexHitChar, overlap, distSq, abs_lt, GRAVITY,
    GROUND_OFFSET, CHARACTER_WIDTH, CHARACTER_HEIGHT, BOMB_COOLDOWN, SCORE_TO_PASS_LEVEL,
    MAX_BOMBS, PINCH_START_DIST, PINCH_STOP_DIST, GRAB_MAGNET_RADIUS, List.foldl]

/-- Claim C2 (amended): the one-time guard of the scripted AI is the
hasTricked flag, which only a completed trick sets; once it is true, no
scripted behavior (neither a jump nor a trick retreat) ever triggers again
for that character and the flag stays true.  A jump does not set the flag,
so jumps are not limited to once per life. -/
theorem C2_has_tricked_guard (level : ℤ) (isLevelUp : Bool) (grabbedCharId : ℤ)
    (pp : Option Pt) (dt groundY : ℚ) (rng : ℕ → ℚ) (i : ℕ) (c : Character)
    (h : c.hasTricked = true) :
    (charBody level isLevelUp grabbedCharId pp dt groundY rng i c).jumped = false ∧
    (charBody level isLevelUp grabbedCharId pp dt groundY rng i c).trickStarted = false ∧
    (charBody level isLevelUp grabbedCharId pp dt groundY rng i c).c.hasTricked = true := by
  have hfree : (charFree level isLevelUp dt groundY rng i c).jumped = false ∧
      (charFree level isLevelUp dt groundY rng i c).trickStarted = false ∧
      (charFree level isLevelUp dt groundY rng i c).c.hasTricked = true := by
    refine ⟨?_, ?_, ?_⟩ <;>
      simp [charFree, charAI_of_hasTricked level isLevelUp rng i c h,
        charPhysics_hasTricked, charTrickTimer_hasTricked dt c h]
  cases pp with
  | none =>
    simp only [charBody]
    exact hfree
  | some p =>
    simp only [charBody]
    split
    · exact ⟨rfl, rfl, h⟩
    · exact hfree

/-- Witness for C2 on a character that has already completed its trick. -/
theorem C2_has_tricked_guard_witness :
    ({ cexJumpChar with hasTricked := true } : Character).hasTricked = true ∧
    (charBody 2 false (-1) none 1 640 (fun _ => 0) 0
        { cexJumpChar with hasTricked := true }).jumped = false ∧
    (charBody 2 false (-1) none 1 640 (fun _ => 0) 0
        { cexJumpChar with hasTricked := true }).trickStarted = false ∧
    (charBody 2 false (-1) none 1 640 (fun _ => 0) 0
        { cexJumpChar with hasTricked := true }).c.hasTricked = true :=
  ⟨rfl, C2_has_tricked_guard 2 false (-1) none 1 640 (fun _ => 0) 0
    { cexJumpChar with hasTricked := true } rfl⟩

/-- Counterexample for C2 as stated: at level 2 with frame delta 30 and a
random stream of zeros, the same character triggers a scripted jump in two
consecutive updates (it lands within the first update and jumps again in
the second), so the scripted behavior is not limited to once per life. -/
theorem C2_counterexample :
    (charBody 2 false (-1) none 30 640 (fun _ => 0) 0 cexJumpChar).jumped = true ∧
    (charBody 2 false (-1) none 30 640 (fun _ => 0)
        (charBody 2 false (-1) none 30 640 (fun _ => 0) 0 cexJumpChar).rix
        (charBody 2 false (-1) none 30 640 (fun _ => 0) 0 cexJumpChar).c).jumped = true := by
  norm_num +decide [charBody, charFree, charAI, charTrickTimer, charPhysics, cexJumpChar,
    GRAVITY, CHARACTER_HEIGHT]

/-- Claim C3 (amended): when the level score reaches SCORE_TO_PASS_LEVEL
while the status is PLAYING, addScore switches the status to LEVEL_UP at
once, and any later addScore call in the same tick cannot trigger a second
transition (the status stays LEVEL_UP) — but it still adds its points to
both scores, so scoring is not frozen for the rest of the tick. -/
theorem C3_level_up_immediate (rng : ℕ → ℚ) (i : ℕ) (pts : ℤ) (sc : ScoreCtx)
    (h1 : sc.status = GameStatus.PLAYING)
    (h2 : SCORE_TO_PASS_LEVEL ≤ sc.levelScore + pts) :
    (addScore rng i pts sc).1.status = GameStatus.LEVEL_UP ∧
    (addScore rng i pts sc).1.score = sc.score + pts ∧
    (addScore rng i pts sc).1.levelScore = sc.levelScore + pts ∧
    ∀ (rng2 : ℕ → ℚ) (j : ℕ) (q : ℤ),
      (addScore rng2 j q (addScore rng i pts sc).1).1.status = GameStatus.LEVEL_UP ∧
      (addScore rng2 j q (addScore rng i pts sc).1).1.score =
        (addScore rng i pts sc).1.score + q ∧
      (addScore rng2 j q (addScore rng i pts sc).1).1.levelScore =
        (addScore rng i pts sc).1.levelScore + q := by
  have hfirst : (addScore rng i pts sc).1 =
      { score := sc.score + pts, levelScore := sc.levelScore + pts,
        status := GameStatus.LEVEL_UP, level := sc.level,
        msg := pickMsg sc.level (rng i) } := by
    simp [addScore, h1, h2]
  refine ⟨by rw [hfirst], by rw [hfirst], by rw [hfirst], ?_⟩
  intro rng2 j q
  rw [hfirst]
  simp [addScore]

/-- Witness for C3 at a concrete score context one point short of the level
goal. -/
theorem C3_level_up_immediate_witness :
    (({ score := 9, levelScore := 9, status := GameStatus.PLAYING, level := 1,
        msg := "" } : ScoreCtx).status = GameStatus.PLAYING ∧
      SCORE_TO_PASS_LEVEL ≤ (9 : ℤ) + 1) ∧
    (addScore (fun _ => 0) 0 1
        { score := 9, levelScore := 9, status := GameStatus.PLAYING, level := 1,
          msg := "" }).1.status = GameStatus.LEVEL_UP :=
  ⟨⟨rfl, by norm_num [SCORE_TO_PASS_LEVEL]⟩,
    (C3_level_up_immediate (fun _ => 0) 0 1
      { score := 9, levelScore := 9, status := GameStatus.PLAYING, level := 1, msg := "" }
      rfl (by norm_num [SCORE_TO_PASS_LEVEL])).1⟩

/-- Counterexample for C3 as stated: in a single PLAYING tick with level
score 9, the first bomb hit raises the level score to 10 and switches to
LEVEL_UP, yet a second bomb hit later in the same tick still scores (the
per-tick LEVEL_UP latch was read at tick start), so the tick ends with level
score 11, not 10. -/
theorem C3_counterexample :
    (tick cexNoHandInput cexC3State).levelScore = 11 ∧
    (tick cexNoHandInput cexC3State).status = GameStatus.LEVEL_UP ∧
    ¬((11 : ℤ) = 10) := by
  norm_num +decide [tick, playTick, detectGesture, updatePinch, dropSpawn, dropUpdate,
    bombSpawn, bombStage, bombStep, bombPhys, bombScan, hitEffect, addScore, pickMsg,
    grabStage, releaseStage, charStage, charLoop, charBody, charFree, charAI,
    charTrickTimer, charPhysics, cexC3State, cexNoHandInput, overlap, distSq, abs_lt,
    GRAVITY, GROUND_OFFSET, CHARACTER_WIDTH, CHARACTER_HEIGHT, BOMB_COOLDOWN,
    SCORE_TO_PASS_LEVEL, MAX_BOMBS, PINCH_START_DIST, PINCH_STOP_DIST,
    GRAB_MAGNET_RADIUS, LEVEL_MESSAGES_easy, List.foldl]

/-- Claim C5: the pinch hysteresis. From not pinching, the flag becomes true
exactly when the chosen pinch distance d drops below 60 and no bomb gesture
is present; from pinching, it stays true exactly while the distance stays at
most 100 and no bomb gesture is present; and on the distance sequence
70, 55, 90, 110 starting from not pinching the flag runs
false, true, true, false.  Distances enter updatePinch squared. -/
theorem C5_pinch_hysteresis (d : ℚ) (five : Bool) (hd : 0 ≤ d) :
    (updatePinch false (d * d) five = true ↔ (d < 60 ∧ five = false)) ∧
    (updatePinch true (d * d) five = true ↔ (d ≤ 100 ∧ five = false)) ∧
    (updatePinch false (70 * 70) false = false ∧
      updatePinch false (55 * 55) false = true ∧
      updatePinch true (90 * 90) false = true ∧
      updatePinch true (110 * 110) false = false) := by
  refine ⟨?_, ?_, by norm_num [updatePinch, PINCH_START_DIST, PINCH_STOP_DIST]⟩
  · have h60 : d * d < 60 * 60 ↔ d < 60 :=
      sq_lt_sq_iff_of_nonneg d 60 hd (by norm_num)
    simp only [updatePinch, PINCH_START_DIST]
    rcases five with _ | _ <;> simp [h60]
  · have h100 : d * d ≤ 100 * 100 ↔ d ≤ 100 :=
      sq_le_sq_iff_of_nonneg d 100 hd (by norm_num)
    simp only [updatePinch, PINCH_STOP_DIST]
    rcases five with _ | _ <;> simp [← h100, not_lt]

/-- Witness for C5 at distance 70. -/
theorem C5_pinch_hysteresis_witness :
    (0 : ℚ) ≤ 70 ∧
      ((updatePinch false (70 * 70) false = true ↔ ((70 : ℚ) < 60 ∧ false = false)) ∧
      (updatePinch true (70 * 70) false = true ↔ ((70 : ℚ) ≤ 100 ∧ false = false)) ∧
      (updatePinch false (70 * 70) false = false ∧
        updatePinch false (55 * 55) false = true ∧
        updatePinch true (90 * 90) false = true ∧
        updatePinch true (110 * 110) false = false)) :=
  ⟨by norm_num, C5_pinch_hysteresis 70 false (by norm_num)⟩

theorem ltOpt_false_iff (d : ℚ) (md : Option ℚ) :
    ltOpt d md = false ↔ ∃ v, md = some v ∧ v ≤ d := by
  cases md <;> simp [ltOpt, not_lt]

theorem ltOpt_trans (d1 d2 : ℚ) (md : Option ℚ) (h1 : d1 < d2) (h2 : ltOpt d2 md = true) :
    ltOpt d1 md = true := by
  cases md with
  | none => rfl
  | some v =>
    simp only [ltOpt, decide_eq_true_eq] at h2 ⊢
    exact lt_trans h1 h2

theorem grabScanAux_spec (pp : Pt) :
    ∀ (cs : List Character) (md : Option ℚ) (fid : ℤ),
      (grabScanAux pp md fid cs = (md, fid) ∧
        ∀ c ∈ cs, inRadius pp c → ltOpt (distSq pp (charPt c)) md = false) ∨
      (∃ c ∈ cs, inRadius pp c ∧
        grabScanAux pp md fid cs = (some (distSq pp (charPt c)), c.id) ∧
        ltOpt (distSq pp (charPt c)) md = true ∧
        ∀ x ∈ cs, inRadius pp x → distSq pp (charPt c) ≤ distSq pp (charPt x)) := by
  intro cs
  induction cs with
  | nil =>
    intro md fid
    left
    exact ⟨rfl, by simp⟩
  | cons c rest ih =>
    intro md fid
    by_cases hd : c.isDead = true
    · have heq : grabScanAux pp md fid (c :: rest) = grabScanAux pp md fid rest := by
        simp [grabScanAux, hd]
      have hnr : ¬ inRadius pp c := by
        intro hin
        rw [hin.1.1] at hd
        exact Bool.false_ne_true hd
      rcases ih md fid with ⟨he, hall⟩ | ⟨c', hmem, hin, he, hlt, hmin⟩
      · left
        refine ⟨heq.trans he, ?_⟩
        intro x hx hinx
        rcases List.mem_cons.mp hx with rfl | hx'
        · exact absurd hinx hnr
        · exact hall x hx' hinx
      · right
        refine ⟨c', List.mem_cons_of_mem c hmem, hin, heq.trans he, hlt, ?_⟩
        intro x hx hinx
        rcases List.mem_cons.mp hx with rfl | hx'
        · exact absurd hinx hnr
        · exact hmin x hx' hinx
    · by_cases hst : c.state ≠ CharState.RUNNING ∧ c.state ≠ CharState.JUMPING
      · have heq : grabScanAux pp md fid (c :: rest) = grabScanAux pp md fid rest := by
          simp [grabScanAux, hd, hst]
        have hnr : ¬ inRadius pp c := by
          intro hin
          rcases hin.1.2 with h | h
          · exact hst.1 h
          · exact hst.2 h
        rcases ih md fid with ⟨he, hall⟩ | ⟨c', hmem, hin, he, hlt, hmin⟩
        · left
          refine ⟨heq.trans he, ?_⟩
          intro x hx hinx
          rcases List.mem_cons.mp hx with rfl | hx'
          · exact absurd hinx hnr
          · exact hall x hx' hinx
        · right
          refine ⟨c', List.mem_cons_of_mem c hmem, hin, heq.trans he, hlt, ?_⟩
          intro x hx hinx
          rcases List.mem_cons.mp hx with rfl | hx'
          · exact absurd hinx hnr
          · exact hmin x hx' hinx
      · have hgrab : grabbable c := by
          constructor
          · exact Bool.not_eq_true c.isDead ▸ eq_false_of_ne_true hd
          · rcases not_and_or.mp hst with h | h
            · exact Or.inl (not_not.mp h)
            · exact Or.inr (not_not.mp h)
        by_cases hcond : distSq pp (charPt c) < GRAB_MAGNET_RADIUS * GRAB_MAGNET_RADIUS ∧
            ltOpt (distSq pp (charPt c)) md = true
        · have heq : grabScanAux pp md fid (c :: rest) =
              grabScanAux pp (some (distSq pp (charPt c))) c.id rest := by
            simp [grabScanAux, hd, hst, hcond.1, hcond.2]
          have hinc : inRadius pp c := ⟨hgrab, hcond.1⟩
          rcases ih (some (distSq pp (charPt c))) c.id with ⟨he, hall⟩ |
            ⟨c', hmem, hin, he, hlt, hmin⟩
          · right
            refine ⟨c, List.mem_cons_self c rest, hinc, heq.trans he, hcond.2, ?_⟩
            intro x hx hinx
            rcases List.mem_cons.mp hx with rfl | hx'
            · exact le_refl _
            · have := hall x hx' hinx
              rcases (ltOpt_false_iff _ _).mp this with ⟨v, hv, hle⟩
              rw [Option.some_inj] at hv
              rw [← hv] at hle
              exact hle
          · right
            have hlt' : distSq pp (charPt c') < distSq pp (charPt c) := by
              have := hlt
              simp only [ltOpt, decide_eq_true_eq] at this
              exact this
            refine ⟨c', List.mem_cons_of_mem c hmem, hin, heq.trans he,
              ltOpt_trans _ _ md hlt' hcond.2, ?_⟩
            intro x hx hinx
            rcases List.mem_cons.mp hx with rfl | hx'
            · exact le_of_lt hlt'
            · exact hmin x hx' hinx
        · have heq : grabScanAux pp md fid (c :: rest) = grabScanAux pp md fid rest := by
            by_cases h1 : distSq pp (charPt c) < GRAB_MAGNET_RADIUS * GRAB_MAGNET_RADIUS
            · have h2 : ltOpt (distSq pp (charPt c)) md = false := by
                rcases Bool.eq_false_or_eq_true (ltOpt (distSq pp (charPt c)) md) with h | h
                · exact absurd ⟨h1, h⟩ hcond
                · exact h
              simp [grabScanAux, hd, hst, h2]
            · simp [grabScanAux, hd, hst, h1]
          rcases ih md fid with ⟨he, hall⟩ | ⟨c', hmem, hin, he, hlt, hmin⟩
          · left
            refine ⟨heq.trans he, ?_⟩
            intro x hx hinx
            rcases List.mem_cons.mp hx with rfl | hx'
            · rcases Bool.eq_false_or_eq_true (ltOpt (distSq pp (charPt x)) md) with h | h
              · exact absurd ⟨hinx.2, h⟩ hcond
              · exact h
            · exact hall x hx' hinx
          · right
            refine ⟨c', List.mem_cons_of_mem c hmem, hin, heq.trans he, hlt, ?_⟩
            intro x hx hinx
            rcases List.mem_cons.mp hx with rfl | hx'
            · have h2 : ltOpt (distSq pp (charPt x)) md = false := by
                rcases Bool.eq_false_or_eq_true (ltOpt (distSq pp (charPt x)) md) with h | h
                · exact absurd ⟨hinx.2, h⟩ hcond
                · exact h
              rcases (ltOpt_false_iff _ _).mp h2 with ⟨v, hv, hle⟩
              have hlt2 : distSq pp (charPt c') < v := by
                rw [hv] at hlt
                simp only [ltOpt, decide_eq_true_eq] at hlt
                exact hlt
              exact le_of_lt (lt_of_lt_of_le hlt2 hle)
            · exact hmin x hx' hinx

/-- Claim C8: target acquisition considers exactly the live characters in
RUNNING or JUMPING state; the scan returns no id exactly when no such
candidate lies strictly inside the magnet radius, and otherwise returns the
id of a candidate of minimum distance among all candidates strictly inside
the radius; moreover the grab stage does nothing unless nothing is grabbed
and the pinch flag is on. -/
theorem C8_target_acquisition (p : Pt) (chars : List Character)
    (hids : ∀ c ∈ chars, c.id ≠ -1) :
    ((grabScanAux p none (-1) chars).2 = -1 ↔ ∀ c ∈ chars, ¬ inRadius p c) ∧
    ((grabScanAux p none (-1) chars).2 ≠ -1 →
      ∃ c ∈ chars, c.id = (grabScanAux p none (-1) chars).2 ∧ inRadius p c ∧
        ∀ x ∈ chars, inRadius p x → distSq p (charPt c) ≤ distSq p (charPt x)) ∧
    (∀ (isLU : Bool) (pp : Option Pt) (pin : Bool) (rng : ℕ → ℚ) (gid : ℤ)
        (sc : ScoreCtx) (i : ℕ), (¬gid = -1) ∨ pin = false →
      grabStage isLU pp pin rng gid chars sc i =
        { grabbedCharId := gid, characters := chars, sc := sc, rix := i }) := by
  have hguard : ∀ (isLU : Bool) (pp : Option Pt) (pin : Bool) (rng : ℕ → ℚ) (gid : ℤ)
      (sc : ScoreCtx) (i : ℕ), (¬gid = -1) ∨ pin = false →
      grabStage isLU pp pin rng gid chars sc i =
        { grabbedCharId := gid, characters := chars, sc := sc, rix := i } := by
    intro isLU pp pin rng gid sc i hg
    cases pp with
    | none => rfl
    | some q =>
      rcases hg with hg | hg
      · simp [grabStage, hg]
      · simp [grabStage, hg]
  rcases grabScanAux_spec p chars none (-1) with ⟨he, hall⟩ | ⟨c, hm, hin, he, _, hmin⟩
  · refine ⟨?_, ?_, hguard⟩
    · rw [he]
      simp only [true_iff]
      intro c hc hin
      have := hall c hc hin
      simp [ltOpt] at this
    · rw [he]
      intro hne
      exact absurd rfl hne
  · refine ⟨?_, ?_, hguard⟩
    · rw [he]
      constructor
      · intro hcid
        exact absurd hcid (hids c hm)
      · intro hno
        exact absurd hin (hno c hm)
    · intro _
      exact ⟨c, hm, by rw [he], hin, hmin⟩

/-- Witness for C8 on a single grabbable character 50 pixels away. -/
theorem C8_target_acquisition_witness :
    (∀ c ∈ [cexGrabChar], c.id ≠ -1) ∧
    ((grabScanAux { x := 0, y := 0 } none (-1) [cexGrabChar]).2 ≠ -1 →
      ∃ c ∈ [cexGrabChar],
        c.id = (grabScanAux { x := 0, y := 0 } none (-1) [cexGrabChar]).2 ∧
        inRadius { x := 0, y := 0 } c ∧
        ∀ x ∈ [cexGrabChar], inRadius { x := 0, y := 0 } x →
          distSq { x := 0, y := 0 } (charPt c) ≤ distSq { x := 0, y := 0 } (charPt x)) :=
  ⟨by simp [cexGrabChar],
    (C8_target_acquisition { x := 0, y := 0 } [cexGrabChar] (by simp [cexGrabChar])).2.1⟩

theorem updateFirst_append (p : Character → Bool) (f : Character → Character)
    (post : List Character) (c : Character) (hc : p c = true) :
    ∀ pre : List Character, (∀ x ∈ pre, p x = false) →
      updateFirst p f (pre ++ c :: post) = pre ++ f c :: post := by
  intro pre
  induction pre with
  | nil =>
    intro _
    simp [updateFirst, hc]
  | cons a rest ih =>
    intro hpre
    have ha := hpre a (by simp)
    have hrest : ∀ x ∈ rest, p x = false := fun x hx => hpre x (by simp [hx])
    simp only [List.cons_append, updateFirst, ha, Bool.false_eq_true, if_false,
      List.append_eq]
    rw [ih hrest]

/-- Claim C7: grab-then-release semantics.  Acquiring a RUNNING character
(the one the magnet scan returns, the first of its id in list order) sets
its state to GRABBED, clears its in-progress trick flag, and adds exactly
one point to both scores; and the release block, on a tick with the pinch
flag off while a character is grabbed, sets that character to FALLING with
vx reset to its original speed and vy zeroed, and clears the grab id. -/
theorem C7_grab_release :
    (∀ (p : Pt) (rng : ℕ → ℚ) (chars : List Character) (sc : ScoreCtx) (i : ℕ)
        (pre post : List Character) (c : Character),
        chars = pre ++ c :: post →
        (grabScanAux p none (-1) chars).2 = c.id →
        c.id ≠ -1 →
        (∀ x ∈ pre, x.id ≠ c.id) →
        c.state = CharState.RUNNING →
        (grabStage false (some p) true rng (-1) chars sc i).grabbedCharId = c.id ∧
        (grabStage false (some p) true rng (-1) chars sc i).characters =
          pre ++ { c with state := CharState.GRABBED, isTricking := false } :: post ∧
        (grabStage false (some p) true rng (-1) chars sc i).sc.score = sc.score + 1 ∧
        (grabStage false (some p) true rng (-1) chars sc i).sc.levelScore =
          sc.levelScore + 1) ∧
    (∀ (gid : ℤ) (chars pre post : List Character) (c : Character),
        gid ≠ -1 →
        chars = pre ++ c :: post →
        (∀ x ∈ pre, x.id ≠ gid) →
        c.id = gid →
        releaseStage false gid chars =
          { characters :=
              pre ++ { c with state := CharState.FALLING, vx := c.originalSpeed, vy := 0 }
                :: post,
            grabbedCharId := -1 }) := by
  constructor
  · intro p rng chars sc i pre post c hchars hfound hne hpre hrun
    have hany : chars.any (fun x => decide (x.id = c.id)) = true := by
      rw [hchars]
      refine List.any_eq_true.mpr ⟨c, by simp, ?_⟩
      simp
    have hupd : updateFirst (fun x => decide (x.id = c.id))
        (fun x => { x with state := CharState.GRABBED, isTricking := false }) chars =
        pre ++ { c with state := CharState.GRABBED, isTricking := false } :: post := by
      rw [hchars]
      refine updateFirst_append _ _ post c (by simp) pre ?_
      intro x hx
      simp [hpre x hx]
    have hscore : ∀ j, (addScore rng j 1 sc).1.score = sc.score + 1 ∧
        (addScore rng j 1 sc).1.levelScore = sc.levelScore + 1 := by
      intro j
      simp only [addScore]
      split_ifs <;> exact ⟨rfl, rfl⟩
    simp only [grabStage, hfound, hne, hany, hupd]
    simp [hscore i, hne]
  · intro gid chars pre post c hgid hchars hpre hcid
    have hupd : updateFirst (fun x => decide (x.id = gid))
        (fun x => { x with state := CharState.FALLING, vx := x.originalSpeed, vy := 0 })
        chars =
        pre ++ { c with state := CharState.FALLING, vx := c.originalSpeed, vy := 0 }
          :: post := by
      rw [hchars]
      refine updateFirst_append _ _ post c (by simp [hcid]) pre ?_
      intro x hx
      simp [hpre x hx]
    simp [releaseStage, hgid, hupd]

/-- Witness for C7 on a single RUNNING character 50 pixels from the pinch
point: the acquisition effects and the release effects at concrete inputs. -/
theorem C7_grab_release_witness :
    (([cexGrabChar] : List Character) = [] ++ cexGrabChar :: [] ∧
      (grabScanAux { x := 0, y := 0 } none (-1) [cexGrabChar]).2 = cexGrabChar.id ∧
      cexGrabChar.id ≠ -1 ∧ cexGrabChar.state = CharState.RUNNING) ∧
    (grabStage false (some { x := 0, y := 0 }) true (fun _ => 0) (-1) [cexGrabChar]
        { score := 0, levelScore := 0, status := GameStatus.PLAYING, level := 1, msg := "" }
        0).grabbedCharId = cexGrabChar.id ∧
    (grabStage false (some { x := 0, y := 0 }) true (fun _ => 0) (-1) [cexGrabChar]
        { score := 0, levelScore := 0, status := GameStatus.PLAYING, level := 1, msg := "" }
        0).characters = [] ++ cexGrabbedChar :: [] ∧
    (grabStage false (some { x := 0, y := 0 }) true (fun _ => 0) (-1) [cexGrabChar]
        { score := 0, levelScore := 0, status := GameStatus.PLAYING, level := 1, msg := "" }
        0).sc.score = 0 + 1 ∧
    releaseStage false cexGrabChar.id [cexGrabbedChar] =
      { characters :=
          [] ++
            { cexGrabbedChar with
              state := CharState.FALLING, vx := cexGrabbedChar.originalSpeed, vy := 0 } :: [],
        grabbedCharId := -1 } := by
  have hscan : (grabScanAux { x := 0, y := 0 } none (-1) [cexGrabChar]).2 =
      cexGrabChar.id := by
    norm_num [grabScanAux, ltOpt, distSq, charPt, cexGrabChar, GRAB_MAGNET_RADIUS]
  have h1 := (C7_grab_release.1 { x := 0, y := 0 } (fun _ => 0) [cexGrabChar]
    { score := 0, levelScore := 0, status := GameStatus.PLAYING, level := 1, msg := "" }
    0 [] [] cexGrabChar rfl hscan (by norm_num [cexGrabChar]) (by simp) rfl)
  have h2 := C7_grab_release.2 cexGrabChar.id [cexGrabbedChar] [] [] cexGrabbedChar
    (by norm_num [cexGrabChar]) rfl (by simp) rfl
  exact ⟨⟨rfl, hscan, by norm_num [cexGrabChar], rfl⟩, h1.1, h1.2.1, h1.2.2.1, h2⟩

theorem charLoop_breach (level : ℤ) (gid : ℤ) (pp : Option Pt) (dt groundY w : ℚ)
    (rng : ℕ → ℚ) (c : Character) (post : List Character)
    (hc : c.isDead = false) :
    ∀ (pre : List Character) (i : ℕ) (ps : List Character) (j : ℕ),
      charLoop level false gid pp dt groundY w rng i pre =
        { characters := ps, rix := j, breached := false } →
      w + 20 < (charBody level false gid pp dt groundY rng j c).c.x →
      charLoop level false gid pp dt groundY w rng i (pre ++ c :: post) =
        { characters := ps ++ (charBody level false gid pp dt groundY rng j c).c :: post,
          rix := (charBody level false gid pp dt groundY rng j c).rix,
          breached := true } := by
  intro pre
  induction pre with
  | nil =>
    intro i ps j h hbr
    simp only [charLoop, CharLoopRes.mk.injEq] at h
    obtain ⟨hps, hj, -⟩ := h
    subst hps
    subst hj
    simp only [List.nil_append, charLoop, hc, Bool.false_eq_true, if_false]
    rw [if_pos (by simpa using hbr)]
  | cons a rest ih =>
    intro i ps j h hbr
    by_cases hd : a.isDead = true
    · rcases hR : charLoop level false gid pp dt groundY w rng i rest with ⟨ps0, j0, br0⟩
      simp only [charLoop, hd, if_true, hR, CharLoopRes.mk.injEq] at h
      obtain ⟨hps, hj, hbf⟩ := h
      subst hj
      subst hbf
      have ihh := ih i ps0 j0 (by rw [hR]) hbr
      simp only [List.cons_append, charLoop, hd, if_true, List.append_eq, ihh]
      rw [← hps]
      simp
    · simp only [charLoop, hd, Bool.false_eq_true, if_false] at h
      split at h
      · next hcond =>
        exact absurd (congrArg CharLoopRes.breached h) (by simp)
      · next hcond =>
        rcases hR : charLoop level false gid pp dt groundY w rng
            (charBody level false gid pp dt groundY rng i a).rix rest with ⟨ps0, j0, br0⟩
        rw [hR] at h
        simp only [CharLoopRes.mk.injEq] at h
        obtain ⟨hps, hj, hbf⟩ := h
        subst hj
        subst hbf
        have ihh := ih (charBody level false gid pp dt groundY rng i a).rix ps0 j0
          (by rw [hR]) hbr
        simp only [List.cons_append, charLoop, hd, Bool.false_eq_true, if_false,
          List.append_eq]
        split
        · next hcond2 => exact absurd hcond2 hcond
        · next hcond2 =>
          rw [ihh, ← hps]
          simp

/-- Claim C9: the boundary failure.  (1) A tick that starts in GAME_OVER
returns immediately and leaves the state unchanged.  (2) If, while the
characters are processed in order during a non-LEVEL_UP tick, a live
character ends its update beyond the right boundary (x greater than the
canvas width plus 20), the loop stops right there with the breach flag set:
the characters after it are returned untouched, with no physics, AI, or any
further processing applied to them (and the character loop never scores).
(3) The breach flag sets the final status of the tick to GAME_OVER — one
single transition. -/
theorem C9_boundary_failure :
    (∀ (inp : TickInput) (s : GameState),
      s.status = GameStatus.GAME_OVER → tick inp s = s) ∧
    (∀ (level gid : ℤ) (pp : Option Pt) (dt groundY w : ℚ) (rng : ℕ → ℚ)
        (c : Character) (post pre : List Character) (i : ℕ) (ps : List Character) (j : ℕ),
        c.isDead = false →
        charLoop level false gid pp dt groundY w rng i pre =
          { characters := ps, rix := j, breached := false } →
        w + 20 < (charBody level false gid pp dt groundY rng j c).c.x →
        charLoop level false gid pp dt groundY w rng i (pre ++ c :: post) =
          { characters :=
              ps ++ (charBody level false gid pp dt groundY rng j c).c :: post,
            rix := (charBody level false gid pp dt groundY rng j c).rix,
            breached := true }) ∧
    (∀ (level : ℤ) (isLU : Bool) (gid : ℤ) (pp : Option Pt) (dt groundY w : ℚ)
        (rng : ℕ → ℚ) (i : ℕ) (chars : List Character) (st : GameStatus),
        (charLoop level isLU gid pp dt groundY w rng i chars).breached = true →
        (charStage level isLU gid pp dt groundY w rng i chars st).2 =
          GameStatus.GAME_OVER) := by
  refine ⟨?_, ?_, ?_⟩
  · intro inp s h
    simp [tick, h]
  · intro level gid pp dt groundY w rng c post pre i ps j hc hpre hbr
    exact charLoop_breach level gid pp dt groundY w rng c post hc pre i ps j hpre hbr
  · intro level isLU gid pp dt groundY w rng i chars st h
    simp [charStage, h]

/-- Witness for C9: a GAME_OVER tick is the identity on a concrete state; a
concrete breaching character halts the loop leaving the character after it
untouched; and the breach flag forces the GAME_OVER status. -/
theorem C9_boundary_failure_witness :
    (cexGameOverState.status = GameStatus.GAME_OVER ∧
      tick cexNoHandInput cexGameOverState = cexGameOverState) ∧
    (cexBreachChar.isDead = false ∧
      (100 : ℚ) + 20 < (charBody 1 false (-1) none 1 640 (fun _ => 0) 0 cexBreachChar).c.x ∧
      charLoop 1 false (-1) none 1 640 100 (fun _ => 0) 0
          ([] ++ cexBreachChar :: [cexHitChar]) =
        { characters :=
            [] ++ (charBody 1 false (-1) none 1 640 (fun _ => 0) 0 cexBreachChar).c ::
              [cexHitChar],
          rix := (charBody 1 false (-1) none 1 640 (fun _ => 0) 0 cexBreachChar).rix,
          breached := true }) ∧
    ((charLoop 1 false (-1) none 1 640 100 (fun _ => 0) 0 [cexBreachChar]).breached = true ∧
      (charStage 1 false (-1) none 1 640 100 (fun _ => 0) 0 [cexBreachChar]
        GameStatus.PLAYING).2 = GameStatus.GAME_OVER) := by
  have hx : (100 : ℚ) + 20 <
      (charBody 1 false (-1) none 1 640 (fun _ => 0) 0 cexBreachChar).c.x := by
    norm_num [charBody, charFree, charAI, charTrickTimer, charPhysics, cexBreachChar,
      GRAVITY, CHARACTER_HEIGHT]
  have hbrf : (charLoop 1 false (-1) none 1 640 100 (fun _ => 0) 0
      [cexBreachChar]).breached = true := by
    norm_num [charLoop, charBody, charFree, charAI, charTrickTimer, charPhysics,
      cexBreachChar, GRAVITY, CHARACTER_HEIGHT]
  exact ⟨⟨rfl, C9_boundary_failure.1 cexNoHandInput cexGameOverState rfl⟩,
    ⟨rfl, hx, C9_boundary_failure.2.1 1 (-1) none 1 640 100 (fun _ => 0) cexBreachChar
      [cexHitChar] [] 0 [] 0 rfl rfl hx⟩,
    ⟨hbrf, C9_boundary_failure.2.2 1 false (-1) none 1 640 100 (fun _ => 0) 0
      [cexBreachChar] GameStatus.PLAYING hbrf⟩⟩

theorem dropStep_ammo (h dt : ℚ) (pp : Option Pt) (pin : Bool) (acc : DropUpdRes)
    (d : SupplyDrop) (hb : 0 ≤ acc.ammo ∧ acc.ammo ≤ MAX_BOMBS) :
    0 ≤ (dropStep h dt pp pin acc d).ammo ∧ (dropStep h dt pp pin acc d).ammo ≤ MAX_BOMBS := by
  simp only [dropStep]
  split_ifs with h1 <;> constructor <;> omega

theorem dropUpdate_ammo (h dt : ℚ) (pp : Option Pt) (pin : Bool) (b : ℤ)
    (drops : List SupplyDrop) (hb : 0 ≤ b ∧ b ≤ MAX_BOMBS) :
    0 ≤ (dropUpdate h dt pp pin b drops).ammo ∧
      (dropUpdate h dt pp pin b drops).ammo ≤ MAX_BOMBS := by
  have key : ∀ (ds : List SupplyDrop) (acc : DropUpdRes),
      0 ≤ acc.ammo ∧ acc.ammo ≤ MAX_BOMBS →
      0 ≤ (ds.foldl (dropStep h dt pp pin) acc).ammo ∧
        (ds.foldl (dropStep h dt pp pin) acc).ammo ≤ MAX_BOMBS := by
    intro ds
    induction ds with
    | nil => intro acc hacc; exact hacc
    | cons d rest ih =>
      intro acc hacc
      exact ih (dropStep h dt pp pin acc d) (dropStep_ammo h dt pp pin acc d hacc)
  exact key drops { drops := [], ammo := b } hb

theorem bombSpawn_ammo (isLU five : Bool) (pp : Option Pt) (t lbt : ℚ) (b : ℤ)
    (bombs : List Bomb) (bid : ℤ) (hb : 0 ≤ b ∧ b ≤ MAX_BOMBS) :
    0 ≤ (bombSpawn isLU five pp t lbt b bombs bid).ammo ∧
      (bombSpawn isLU five pp t lbt b bombs bid).ammo ≤ MAX_BOMBS := by
  cases pp with
  | none => exact hb
  | some p =>
    simp only [bombSpawn]
    split_ifs with h1 h2 <;> dsimp only <;> constructor <;> omega

theorem playTick_ammo (w h time dt : ℚ) (pp : Option Pt) (five : Bool) (rng : ℕ → ℚ)
    (s : GameState) (hb : 0 ≤ s.bombsRemaining ∧ s.bombsRemaining ≤ MAX_BOMBS) :
    0 ≤ (playTick w h time dt pp five rng s).bombsRemaining ∧
      (playTick w h time dt pp five rng s).bombsRemaining ≤ MAX_BOMBS := by
  simp only [playTick]
  exact bombSpawn_ammo _ _ _ _ _ _ _ _ (dropUpdate_ammo _ _ _ _ _ _ hb)

theorem standbyTick_ammo (w h dt : ℚ) (pp : Option Pt) (pin : Bool) (rng : ℕ → ℚ)
    (s : GameState) (hb : 0 ≤ s.bombsRemaining ∧ s.bombsRemaining ≤ MAX_BOMBS) :
    0 ≤ (standbyTick w h dt pp pin rng s).bombsRemaining ∧
      (standbyTick w h dt pp pin rng s).bombsRemaining ≤ MAX_BOMBS := by
  cases pp with
  | none =>
    simp only [standbyTick]
    exact hb
  | some p =>
    simp only [standbyTick, startGameState]
    split_ifs <;> dsimp only <;> first | exact hb | norm_num [MAX_BOMBS]

theorem tick_ammo (inp : TickInput) (s : GameState)
    (hb : 0 ≤ s.bombsRemaining ∧ s.bombsRemaining ≤ MAX_BOMBS) :
    0 ≤ (tick inp s).bombsRemaining ∧ (tick inp s).bombsRemaining ≤ MAX_BOMBS := by
  simp only [tick]
  split_ifs with h1 h2
  · exact hb
  · exact standbyTick_ammo _ _ _ _ _ _ _ hb
  · exact playTick_ammo _ _ _ _ _ _ _ _ hb

theorem stepEv_ammo (s : GameState) (e : Ev)
    (hb : 0 ≤ s.bombsRemaining ∧ s.bombsRemaining ≤ MAX_BOMBS) :
    0 ≤ (stepEv s e).bombsRemaining ∧ (stepEv s e).bombsRemaining ≤ MAX_BOMBS := by
  cases e with
  | tick inp => exact tick_ammo inp s hb
  | start rng =>
    simp only [stepEv, startGameState]
    norm_num [MAX_BOMBS]
  | reset => exact hb
  | levelTimer rng => exact hb
  | cameraReady => exact hb

/-- Claim C4: in every state reachable from the initial state by any
sequence of external events (frames with arbitrary inputs, start calls,
resets, level timers, camera readiness) the remaining bomb ammo satisfies
0 <= bombsRemaining <= MAX_BOMBS: ammo only decreases on a bomb spawn with
positive ammo and only increases on a supply pickup below the cap. -/
theorem C4_ammo_bound (evs : List Ev) :
    0 ≤ (run initState evs).bombsRemaining ∧
      (run initState evs).bombsRemaining ≤ MAX_BOMBS := by
  have key : ∀ (l : List Ev) (s : GameState),
      0 ≤ s.bombsRemaining ∧ s.bombsRemaining ≤ MAX_BOMBS →
      0 ≤ (run s l).bombsRemaining ∧ (run s l).bombsRemaining ≤ MAX_BOMBS := by
    intro l
    induction l with
    | nil => intro s hs; exact hs
    | cons e rest ih =>
      intro s hs
      exact ih (stepEv s e) (stepEv_ammo s e hs)
  exact key evs initState (by norm_num [initState, MAX_BOMBS])

theorem hitEffect_isDead (groundY : ℚ) (c : Character) :
    (hitEffect groundY c).isDead = c.isDead := by
  simp only [hitEffect]
  split_ifs <;> rfl

theorem bombScan_alive (isLU : Bool) (groundY : ℚ) (b : Bomb) :
    ∀ cs : List Character, AllAlive cs → AllAlive (bombScan isLU groundY b cs).2 := by
  intro cs
  induction cs with
  | nil => intro _; simp [bombScan, AllAlive]
  | cons c rest ih =>
    intro halive
    have hc : c.isDead = false := halive c (by simp)
    have hrest : AllAlive rest := fun x hx => halive x (by simp [hx])
    simp only [bombScan]
    split_ifs with h1 h2
    · intro x hx
      rcases List.mem_cons.mp hx with rfl | hx'
      · exact hc
      · exact ih hrest x hx'
    · intro x hx
      rcases List.mem_cons.mp hx with rfl | hx'
      · rw [hitEffect_isDead]
        exact hc
      · exact hrest x hx'
    · intro x hx
      rcases List.mem_cons.mp hx with rfl | hx'
      · exact hc
      · exact ih hrest x hx'

theorem bombStage_alive (isLU : Bool) (dt groundY : ℚ) (rng : ℕ → ℚ)
    (bombs : List Bomb) (chars : List Character) (sc : ScoreCtx) (i : ℕ)
    (h : AllAlive chars) :
    AllAlive (bombStage isLU dt groundY rng bombs chars sc i).characters := by
  have key : ∀ (bs : List Bomb) (acc : BombStageRes), AllAlive acc.characters →
      AllAlive (bs.foldl (bombStep isLU dt groundY rng) acc).characters := by
    intro bs
    induction bs with
    | nil => intro acc hacc; exact hacc
    | cons b rest ih =>
      intro acc hacc
      refine ih (bombStep isLU dt groundY rng acc b) ?_
      simp only [bombStep]
      exact bombScan_alive isLU groundY _ acc.characters hacc
  exact key bombs { bombs := [], characters := chars, sc := sc, rix := i } h

theorem updateFirst_alive (p : Character → Bool) (f : Character → Character)
    (hf : ∀ c, (f c).isDead = c.isDead) :
    ∀ cs : List Character, AllAlive cs → AllAlive (updateFirst p f cs) := by
  intro cs
  induction cs with
  | nil => intro _; simp [updateFirst, AllAlive]
  | cons c rest ih =>
    intro halive
    have hc : c.isDead = false := halive c (by simp)
    have hrest : AllAlive rest := fun x hx => halive x (by simp [hx])
    simp only [updateFirst]
    split_ifs with h1
    · intro x hx
      rcases List.mem_cons.mp hx with rfl | hx'
      · rw [hf]
        exact hc
      · exact hrest x hx'
    · intro x hx
      rcases List.mem_cons.mp hx with rfl | hx'
      · exact hc
      · exact ih hrest x hx'

theorem grabStage_alive (isLU : Bool) (pp : Option Pt) (pin : Bool) (rng : ℕ → ℚ)
    (gid : ℤ) (chars : List Character) (sc : ScoreCtx) (i : ℕ) (h : AllAlive chars) :
    AllAlive (grabStage isLU pp pin rng gid chars sc i).characters := by
  cases pp with
  | none => exact h
  | some p =>
    simp only [grabStage]
    split_ifs <;> first
      | exact h
      | (refine updateFirst_alive _ _ ?_ chars h
         intro c
         rfl)

theorem releaseStage_alive (pin : Bool) (gid : ℤ) (chars : List Character)
    (h : AllAlive chars) : AllAlive (releaseStage pin gid chars).characters := by
  simp only [releaseStage]
  split_ifs <;> first
    | exact h
    | (refine updateFirst_alive _ _ ?_ chars h
       intro c
       rfl)

theorem charAI_isDead (level : ℤ) (isLU : Bool) (rng : ℕ → ℚ) (i : ℕ) (c : Character) :
    (charAI level isLU rng i c).1.isDead = c.isDead := by
  simp only [charAI]
  split_ifs <;> rfl

theorem charTrickTimer_isDead (dt : ℚ) (c : Character) :
    (charTrickTimer dt c).isDead = c.isDead := by
  simp only [charTrickTimer]
  split_ifs <;> rfl

theorem charPhysics_isDead (isLU : Bool) (dt groundY : ℚ) (c : Character) :
    (charPhysics isLU dt groundY c).isDead = c.isDead := by
  simp only [charPhysics]
  split_ifs <;> rfl

theorem charBody_isDead (level : ℤ) (isLU : Bool) (gid : ℤ) (pp : Option Pt)
    (dt groundY : ℚ) (rng : ℕ → ℚ) (i : ℕ) (c : Character) :
    (charBody level isLU gid pp dt groundY rng i c).c.isDead = c.isDead := by
  have hfree : (charFree level isLU dt groundY rng i c).c.isDead = c.isDead := by
    simp only [charFree]
    rw [charPhysics_isDead, charTrickTimer_isDead, charAI_isDead]
  cases pp with
  | none => exact hfree
  | some p =>
    simp only [charBody]
    split
    · rfl
    · exact hfree

theorem charLoop_alive (level : ℤ) (isLU : Bool) (gid : ℤ) (pp : Option Pt)
    (dt groundY w : ℚ) (rng : ℕ → ℚ) :
    ∀ (cs : List Character) (i : ℕ), AllAlive cs →
      AllAlive (charLoop level isLU gid pp dt groundY w rng i cs).characters := by
  intro cs
  induction cs with
  | nil => intro i _; simp [charLoop, AllAlive]
  | cons c rest ih =>
    intro i halive
    have hc : c.isDead = false := halive c (by simp)
    have hrest : AllAlive rest := fun x hx => halive x (by simp [hx])
    simp only [charLoop]
    split_ifs with h1 h2 h3
    · intro x hx
      rcases List.mem_cons.mp hx with rfl | hx'
      · exact hc
      · exact ih i hrest x hx'
    · intro x hx
      rcases List.mem_cons.mp hx with rfl | hx'
      · rw [charBody_isDead]
        exact hc
      · exact hrest x hx'
    · intro x hx
      rcases List.mem_cons.mp hx with rfl | hx'
      · dsimp only
        rw [charBody_isDead]
        exact hc
      · exact ih _ hrest x hx'
    · intro x hx
      rcases List.mem_cons.mp hx with rfl | hx'
      · rw [charBody_isDead]
        exact hc
      · exact ih _ hrest x hx'

theorem spawnMany_alive (lvl : ℤ) (rng : ℕ → ℚ) :
    ∀ (n : ℕ) (i : ℕ) (cid : ℤ) (k : ℕ), AllAlive (spawnMany lvl rng n i cid k).1 := by
  intro n
  induction n with
  | zero => intro i cid k; simp [spawnMany, AllAlive]
  | succ m ih =>
    intro i cid k x hx
    simp only [spawnMany] at hx
    rcases List.mem_cons.mp hx with rfl | hx'
    · rfl
    · exact ih _ _ _ x hx'

theorem startGameState_alive (rng : ℕ → ℚ) (i : ℕ) (s : GameState) :
    AllAlive (startGameState rng i s).characters := by
  simp only [startGameState, spawnCharacters]
  exact spawnMany_alive 1 rng _ i s.charIdCounter 0

theorem nextLevelState_alive (rng : ℕ → ℚ) (s : GameState) :
    AllAlive (nextLevelState rng s).characters := by
  simp only [nextLevelState, spawnCharacters]
  exact spawnMany_alive _ rng _ 0 s.charIdCounter 0

theorem standbyTick_alive (w h dt : ℚ) (pp : Option Pt) (pin : Bool) (rng : ℕ → ℚ)
    (s : GameState) (hs : AllAlive s.characters) :
    AllAlive (standbyTick w h dt pp pin rng s).characters := by
  have hmoved : ∀ (f : Character → Character), (∀ c, (f c).isDead = c.isDead) →
      ∀ (p : Character → Bool) (cs : List Character), AllAlive cs →
        AllAlive ((cs.map f).filter p) := by
    intro f hf p cs hcs x hx
    have hx' := List.mem_filter.mp hx
    rcases List.mem_map.mp hx'.1 with ⟨y, hy, rfl⟩
    rw [hf]
    exact hcs y hy
  have happ : ∀ (cs : List Character) (c : Character), AllAlive cs →
      c.isDead = false → AllAlive (cs ++ [c]) := by
    intro cs c hcs hc x hx
    rcases List.mem_append.mp hx with hx' | hx'
    · exact hcs x hx'
    · rcases List.mem_singleton.mp hx' with rfl
      exact hc
  cases pp with
  | none =>
    simp only [standbyTick]
    split_ifs with h1
    · dsimp only
      apply hmoved
      · intro c; rfl
      · apply happ _ _ hs; rfl
    · dsimp only
      apply hmoved
      · intro c; rfl
      · exact hs
  | some p =>
    simp only [standbyTick]
    split_ifs
    all_goals dsimp only
    all_goals
      first
        | exact startGameState_alive _ _ _
        | (apply hmoved <;>
            first
              | (intro c; rfl)
              | exact hs
              | (apply happ _ _ hs; rfl))

theorem playTick_alive (w h time dt : ℚ) (pp : Option Pt) (five : Bool) (rng : ℕ → ℚ)
    (s : GameState) (hs : AllAlive s.characters) :
    AllAlive (playTick w h time dt pp five rng s).characters := by
  simp only [playTick, charStage]
  exact charLoop_alive _ _ _ _ _ _ _ _ _ _
    (releaseStage_alive _ _ _
      (grabStage_alive _ _ _ _ _ _ _ _
        (bombStage_alive _ _ _ _ _ _ _ _ hs)))

theorem tick_alive (inp : TickInput) (s : GameState) (hs : AllAlive s.characters) :
    AllAlive (tick inp s).characters := by
  simp only [tick]
  split_ifs with h1 h2
  · exact hs
  · exact standbyTick_alive _ _ _ _ _ _ _ hs
  · exact playTick_alive _ _ _ _ _ _ _ _ hs

theorem stepEv_alive (s : GameState) (e : Ev) (hs : AllAlive s.characters) :
    AllAlive (stepEv s e).characters := by
  cases e with
  | tick inp => exact tick_alive inp s hs
  | start rng => exact startGameState_alive rng 0 s
  | reset => simp [stepEv, resetToStandbyState, AllAlive]
  | levelTimer rng => exact nextLevelState_alive rng s
  | cameraReady => exact hs

/-- Claim C10: no operation of the engine ever sets the isDead marker: in
every state reachable from the initial state by any event sequence, every
character in the population has isDead = false (a bomb hit only knocks a
character back), so the dead-character filters never exclude anything. -/
theorem C10_never_dead (evs : List Ev) (c : Character)
    (hc : c ∈ (run initState evs).characters) : c.isDead = false := by
  have key : ∀ (l : List Ev) (s : GameState), AllAlive s.characters →
      AllAlive (run s l).characters := by
    intro l
    induction l with
    | nil => intro s hs; exact hs
    | cons e rest ih =>
      intro s hs
      exact ih (stepEv s e) (stepEv_alive s e hs)
  exact key evs initState (by simp [initState, AllAlive]) c hc

theorem C10_never_dead_witness :
    cexStandbyWalker ∈
      (run initState [Ev.cameraReady, Ev.tick cexNoHandInput]).characters ∧
    cexStandbyWalker.isDead = false := by
  have hm : cexStandbyWalker ∈
      (run initState [Ev.cameraReady, Ev.tick cexNoHandInput]).characters := by
    norm_num +decide [run, List.foldl, stepEv, tick, standbyTick, detectGesture, updatePinch,
      initState, cexNoHandInput, cexStandbyWalker, GROUND_OFFSET, CHARACTER_HEIGHT,
      MAX_BOMBS, PINCH_START_DIST, PINCH_STOP_DIST, List.mem_cons, Character.mk.injEq]
  exact ⟨hm, C10_never_dead _ _ hm⟩

theorem spawnMany_length (lvl : ℤ) (rng : ℕ → ℚ) :
    ∀ (n i : ℕ) (cid : ℤ) (k : ℕ), (spawnMany lvl rng n i cid k).1.length = n := by
  intro n
  induction n with
  | zero => intro i cid k; rfl
  | succ m ih =>
    intro i cid k
    simp only [spawnMany, List.length_cons, ih]

theorem clampSpeed_bounds (s : ℚ) : 0.8 ≤ clampSpeed s ∧ clampSpeed s ≤ 6.0 := by
  simp only [clampSpeed]
  split_ifs <;> constructor <;> linarith

theorem spawnCount_min (lvl : ℤ) :
    spawnCount lvl = min 25 ⌊(2 : ℝ) + ((lvl : ℝ) - 1) ^ (1.3 : ℝ)⌋ := by
  simp only [spawnCount]
  rcases le_or_lt (⌊(2 : ℝ) + ((lvl : ℝ) - 1) ^ (1.3 : ℝ)⌋) 25 with h | h
  · rw [if_neg (by omega), min_eq_right h]
  · rw [if_pos h, min_eq_left (le_of_lt h)]

theorem spawnCount_nonneg (lvl : ℤ) (hl : 1 ≤ lvl) : 0 ≤ spawnCount lvl := by
  simp only [spawnCount]
  have h0 : (0 : ℝ) ≤ ((lvl : ℝ) - 1) ^ (1.3 : ℝ) := by
    apply Real.rpow_nonneg
    have : (1 : ℝ) ≤ (lvl : ℝ) := by exact_mod_cast hl
    linarith
  have h2 : (0 : ℝ) ≤ (2 : ℝ) + ((lvl : ℝ) - 1) ^ (1.3 : ℝ) := by linarith
  have := Int.le_floor.mpr (by push_cast; linarith : ((0 : ℤ) : ℝ) ≤ (2 : ℝ) + ((lvl : ℝ) - 1) ^ (1.3 : ℝ))
  split_ifs <;> omega

theorem spawnCount_one : spawnCount 1 = 2 := by
  simp only [spawnCount]
  have h0 : (((1 : ℤ) : ℝ) - 1) ^ (1.3 : ℝ) = 0 := by
    norm_num
  rw [h0]
  norm_num

theorem spawnCount_five : spawnCount 5 = 8 := by
  have hx0 : (0 : ℝ) ≤ (4 : ℝ) ^ (1.3 : ℝ) := Real.rpow_nonneg (by norm_num) _
  have hpow : ((4 : ℝ) ^ (1.3 : ℝ)) ^ (10 : ℕ) = (4 : ℝ) ^ (13 : ℕ) := by
    rw [← Real.rpow_natCast ((4 : ℝ) ^ (1.3 : ℝ)) 10, ← Real.rpow_mul (by norm_num)]
    norm_num
  have h6 : (6 : ℝ) ≤ (4 : ℝ) ^ (1.3 : ℝ) := by
    by_contra h
    push_neg at h
    have := pow_lt_pow_left₀ h hx0 (by norm_num : (10 : ℕ) ≠ 0)
    rw [hpow] at this
    norm_num at this
  have h7 : (4 : ℝ) ^ (1.3 : ℝ) < 7 := by
    by_contra h
    push_neg at h
    have := pow_le_pow_left₀ (by norm_num : (0 : ℝ) ≤ 7) h 10
    rw [hpow] at this
    norm_num at this
  have hfl : ⌊(2 : ℝ) + (((5 : ℤ) : ℝ) - 1) ^ (1.3 : ℝ)⌋ = 8 := by
    have h54 : (((5 : ℤ) : ℝ) - 1) = (4 : ℝ) := by norm_num
    rw [h54, Int.floor_eq_iff]
    constructor
    · push_cast
      linarith
    · push_cast
      linarith
  simp only [spawnCount, hfl]
  norm_num

theorem spawnMany_mem (lvl : ℤ) (rng : ℕ → ℚ) :
    ∀ (n i : ℕ) (cid : ℤ) (k : ℕ) (c : Character), c ∈ (spawnMany lvl rng n i cid k).1 →
      ∃ j : ℕ, c.vx = clampSpeed ((1.0 + (lvl : ℚ) * 0.2) * (0.7 + rng j * 0.6)) ∧
        c.originalSpeed = c.vx := by
  intro n
  induction n with
  | zero => intro i cid k c hc; simp [spawnMany] at hc
  | succ m ih =>
    intro i cid k c hc
    simp only [spawnMany] at hc
    rcases List.mem_cons.mp hc with rfl | hc'
    · exact ⟨i, rfl, rfl⟩
    · exact ih _ _ _ c hc'

/-- Claim C6: for every level of at least 1 and every outcome of the random
stream in [0,1), the spawn algorithm creates exactly min(25, floor(2 +
(level-1)^1.3)) characters (2 at level 1, 8 at level 5), and every spawned
character carries originalSpeed = vx with vx in [0.8, 6.0], obtained by
clamping (1.0 + level*0.2) times a uniform factor in [0.7, 1.3]. -/
theorem C6_spawn_algorithm (lvl : ℤ) (rng : ℕ → ℚ) (i : ℕ) (cid : ℤ)
    (hl : 1 ≤ lvl) (hr : ∀ n, 0 ≤ rng n ∧ rng n < 1) :
    (((spawnCharacters lvl rng i cid).1.length : ℤ)
        = min 25 ⌊(2 : ℝ) + ((lvl : ℝ) - 1) ^ (1.3 : ℝ)⌋) ∧
    spawnCount 1 = 2 ∧ spawnCount 5 = 8 ∧
    ∀ c ∈ (spawnCharacters lvl rng i cid).1,
      c.originalSpeed = c.vx ∧ 0.8 ≤ c.vx ∧ c.vx ≤ 6.0 ∧
      ∃ u : ℚ, 0.7 ≤ u ∧ u ≤ 1.3 ∧ c.vx = clampSpeed ((1.0 + (lvl : ℚ) * 0.2) * u) := by
  refine ⟨?_, spawnCount_one, spawnCount_five, ?_⟩
  · simp only [spawnCharacters, spawnMany_length]
    exact (Int.toNat_of_nonneg (spawnCount_nonneg lvl hl)).trans (spawnCount_min lvl)
  · intro c hc
    simp only [spawnCharacters] at hc
    rcases spawnMany_mem lvl rng _ i cid 0 c hc with ⟨j, hvx, ho⟩
    have hj0 := (hr j).1
    have hj1 := (hr j).2
    have hm0 : (0 : ℚ) ≤ rng j * 0.6 := mul_nonneg hj0 (by norm_num)
    have hm1 : rng j * 0.6 ≤ 0.6 := by nlinarith
    refine ⟨ho, ?_, ?_, ⟨0.7 + rng j * 0.6, by linarith, by linarith, hvx⟩⟩
    · rw [hvx]
      exact (clampSpeed_bounds _).1
    · rw [hvx]
      exact (clampSpeed_bounds _).2

theorem C6_spawn_algorithm_witness :
    ((1 : ℤ) ≤ 1 ∧ ∀ _n : ℕ, 0 ≤ ((1 : ℚ) / 2) ∧ ((1 : ℚ) / 2) < 1) ∧
    ((((spawnCharacters 1 (fun _ => (1 : ℚ) / 2) 0 0).1.length : ℤ)
        = min 25 ⌊(2 : ℝ) + (((1 : ℤ) : ℝ) - 1) ^ (1.3 : ℝ)⌋) ∧
    spawnCount 1 = 2 ∧ spawnCount 5 = 8 ∧
    ∀ c ∈ (spawnCharacters 1 (fun _ => (1 : ℚ) / 2) 0 0).1,
      c.originalSpeed = c.vx ∧ 0.8 ≤ c.vx ∧ c.vx ≤ 6.0 ∧
      ∃ u : ℚ, 0.7 ≤ u ∧ u ≤ 1.3 ∧
        c.vx = clampSpeed ((1.0 + ((1 : ℤ) : ℚ) * 0.2) * u)) :=
  ⟨⟨by norm_num, fun _ => by norm_num⟩,
    C6_spawn_algorithm 1 (fun _ => (1 : ℚ) / 2) 0 0 (by norm_num)
      (fun _ => by norm_num)⟩
